import Mathlib

/-!
# SnakeGame: the simulation loop of `src/main.cpp`

A shallow embedding of the game loop of `main.cpp` (the food spawner, the
reset, the key handling, the simulation step and the frame) together with
the properties of the specification that concern it.

Modelling decisions.

* `SDL_FRect` holds four `float`s.  Every value the program ever stores in
  one is an integer of magnitude at most 800 (a multiple of the segment
  size obtained by adding or subtracting 20), and `float` arithmetic is
  exact on such values, so the fields are modelled as `Int`.
* The random source of `spawnFood` is an input: a `Draw` carries the two
  values returned by `disX(gen)` and `disY(gen)`; `validDraw` states the
  range of the two distributions.
* `snake.front()` on an empty deque is undefined behaviour: the simulation
  step returns `none` there.
* `snake.size() - 3` is `size_t` arithmetic, wrapping around `2 ^ 64`;
  the `Uint32` clock arithmetic is taken modulo `2 ^ 32`.
* The SDL window is represented by its title only; rendering reads the
  state and is not modelled.
-/

namespace SnakeGame

/-- The `enum class Direction` of the source. -/
inductive Direction where
  | UP
  | DOWN
  | LEFT
  | RIGHT
  deriving DecidableEq, Repr

/-- The rectangle type of SDL: position `x`, `y` and extent `w`, `h`. -/
structure SDL_FRect where
  x : Int
  y : Int
  w : Int
  h : Int
  deriving DecidableEq, Repr

def SCREEN_WIDTH : Int := 800

def SCREEN_HEIGHT : Int := 600

def SEGMENT_SIZE : Int := 20

/-- The two values drawn by `spawnFood`: `disX(gen)` and `disY(gen)`. -/
structure Draw where
  col : Int
  row : Int
  deriving DecidableEq, Repr

/-- Upper bound of `disX`: `(SCREEN_WIDTH / (int)SEGMENT_SIZE) - 1`. -/
def disXMax : Int := SCREEN_WIDTH / SEGMENT_SIZE - 1

/-- Upper bound of `disY`: `(SCREEN_HEIGHT / (int)SEGMENT_SIZE) - 1`. -/
def disYMax : Int := SCREEN_HEIGHT / SEGMENT_SIZE - 1

/-- The range of `std::uniform_int_distribution<>(0, max)`: both bounds included. -/
def validDraw (d : Draw) : Prop :=
  0 ≤ d.col ∧ d.col ≤ disXMax ∧ 0 ≤ d.row ∧ d.row ≤ disYMax

instance (d : Draw) : Decidable (validDraw d) := by
  unfold validDraw; infer_instance

/-- The function `spawnFood(SDL_FRect& food)`: overwrites the four fields of `food`. -/
def spawnFood (food : SDL_FRect) (d : Draw) : SDL_FRect :=
  { food with
    x := d.col * SEGMENT_SIZE
    y := d.row * SEGMENT_SIZE
    w := SEGMENT_SIZE
    h := SEGMENT_SIZE }

/-- The function `resetGame(snake, direction, food)`: the three references are
in-out parameters, returned here as a triple. -/
def resetGame (_snake : List SDL_FRect) (_direction : Direction) (food : SDL_FRect)
    (d : Draw) : List SDL_FRect × Direction × SDL_FRect :=
  let snake : List SDL_FRect := []   -- snake.clear()
  let snake := snake ++ [⟨100, 300, SEGMENT_SIZE, SEGMENT_SIZE⟩]
  let snake := snake ++ [⟨100 - SEGMENT_SIZE, 300, SEGMENT_SIZE, SEGMENT_SIZE⟩]
  let snake := snake ++ [⟨100 - 2 * SEGMENT_SIZE, 300, SEGMENT_SIZE, SEGMENT_SIZE⟩]
  let direction := Direction.RIGHT
  let food := spawnFood food d
  (snake, direction, food)

/-- The key codes the loop distinguishes; `OTHER` stands for every other scancode. -/
inductive SDL_Scancode where
  | SDL_SCANCODE_UP
  | SDL_SCANCODE_W
  | SDL_SCANCODE_DOWN
  | SDL_SCANCODE_S
  | SDL_SCANCODE_LEFT
  | SDL_SCANCODE_A
  | SDL_SCANCODE_RIGHT
  | SDL_SCANCODE_D
  | SDL_SCANCODE_R
  | OTHER (code : Nat)
  deriving DecidableEq, Repr

/-- The events the loop distinguishes; `OTHER` stands for every other event type. -/
inductive SDL_Event where
  | SDL_EVENT_QUIT
  | SDL_EVENT_KEY_DOWN (scancode : SDL_Scancode)
  | OTHER
  deriving DecidableEq, Repr

/-- The variables of `main` that the loop reads and writes, and the window title. -/
structure State where
  snake : List SDL_FRect
  current_direction : Direction
  food : SDL_FRect
  next_direction : Direction
  game_over : Bool
  snake_grows : Bool
  last_update_time : Nat
  quit : Bool
  title : String
  deriving DecidableEq, Repr

def update_interval : Nat := 100

/-- The title text built on food collision: `"SnakeGame - Score: " + std::to_string(n)`. -/
def scoreTitle (n : Nat) : String :=
  "SnakeGame - Score: " ++ toString n

/-- The `size_t` subtraction `snake.size() - 3`: below 3 it wraps around `2 ^ 64`. -/
def sizeMinus3 (size : Nat) : Nat :=
  if 3 ≤ size then size - 3 else size + 2 ^ 64 - 3

/-- The state of `main` when the loop is entered (lines 75-87); `food` is the
uninitialised local that `resetGame` overwrites. -/
def initialState (food : SDL_FRect) (d : Draw) : State :=
  let r := resetGame [] Direction.RIGHT food d
  { snake := r.1
    current_direction := r.2.1
    food := r.2.2
    next_direction := r.2.1
    game_over := false
    snake_grows := false
    last_update_time := 0
    quit := false
    title := "SnakeGame - Score: 0" }

/-- The `switch (e.key.scancode)` of the key handler: the latched direction after the key. -/
def latchDirection (current_direction next_direction : Direction) :
    SDL_Scancode → Direction
  | .SDL_SCANCODE_UP | .SDL_SCANCODE_W =>
    if current_direction ≠ Direction.DOWN then Direction.UP else next_direction
  | .SDL_SCANCODE_DOWN | .SDL_SCANCODE_S =>
    if current_direction ≠ Direction.UP then Direction.DOWN else next_direction
  | .SDL_SCANCODE_LEFT | .SDL_SCANCODE_A =>
    if current_direction ≠ Direction.RIGHT then Direction.LEFT else next_direction
  | .SDL_SCANCODE_RIGHT | .SDL_SCANCODE_D =>
    if current_direction ≠ Direction.LEFT then Direction.RIGHT else next_direction
  | _ => next_direction

/-- One iteration of the `SDL_PollEvent` loop (lines 92-120); `d` is the draw
used if the event triggers `resetGame`. -/
def handleEvent (s : State) (e : SDL_Event) (d : Draw) : State :=
  match e with
  | .SDL_EVENT_QUIT => { s with quit := true }
  | .SDL_EVENT_KEY_DOWN scancode =>
    if s.game_over && scancode == SDL_Scancode.SDL_SCANCODE_R then
      let r := resetGame s.snake s.current_direction s.food d
      { s with
        snake := r.1
        current_direction := r.2.1
        food := r.2.2
        next_direction := r.2.1
        game_over := false }
    else
      { s with next_direction := latchDirection s.current_direction s.next_direction scancode }
  | .OTHER => s

/-- The `switch (current_direction)` that moves the copy of the head (lines 128-133). -/
def moveHead (current_direction : Direction) (new_head : SDL_FRect) : SDL_FRect :=
  match current_direction with
  | .UP => { new_head with y := new_head.y - SEGMENT_SIZE }
  | .DOWN => { new_head with y := new_head.y + SEGMENT_SIZE }
  | .LEFT => { new_head with x := new_head.x - SEGMENT_SIZE }
  | .RIGHT => { new_head with x := new_head.x + SEGMENT_SIZE }

/-- Screen wrapping (lines 136-139). -/
def wrapHead (new_head : SDL_FRect) : SDL_FRect :=
  let new_head :=
    if new_head.x < 0 then { new_head with x := SCREEN_WIDTH - SEGMENT_SIZE }
    else if new_head.x ≥ SCREEN_WIDTH then { new_head with x := 0 }
    else new_head
  if new_head.y < 0 then { new_head with y := SCREEN_HEIGHT - SEGMENT_SIZE }
  else if new_head.y ≥ SCREEN_HEIGHT then { new_head with y := 0 }
  else new_head

/-- The position comparison `a.x == b.x && a.y == b.y` used by both collision tests. -/
def samePos (a b : SDL_FRect) : Bool :=
  a.x == b.x && a.y == b.y

/-- The self collision loop (lines 142-147): `i` runs over the indices from 1 on. -/
def selfCollision (new_head : SDL_FRect) (snake : List SDL_FRect) : Bool :=
  (snake.drop 1).any (fun segment => samePos new_head segment)

/-- The head the step computes: the front segment moved in the latched direction and wrapped. -/
def candidateHead (s : State) (front : SDL_FRect) : SDL_FRect :=
  wrapHead (moveHead s.next_direction front)

/-- The simulation step (lines 126-165); `d` is the draw used if food is respawned.
The result is `none` when the snake is empty (`snake.front()` is undefined). -/
def simulationStep (s : State) (d : Draw) : Option State :=
  match s.snake with
  | [] => none
  | front :: _ =>
    let current_direction := s.next_direction
    let new_head := candidateHead s front
    let game_over := s.game_over || selfCollision new_head s.snake
    if game_over then
      some { s with current_direction := current_direction, game_over := game_over }
    else
      let snake := new_head :: s.snake
      let eaten := samePos new_head s.food
      let snake_grows := if eaten then true else s.snake_grows
      let food := if eaten then spawnFood s.food d else s.food
      let title := if eaten then scoreTitle (sizeMinus3 snake.length) else s.title
      let snake := if snake_grows then snake else snake.dropLast
      some { s with
        current_direction := current_direction
        snake := snake
        food := food
        title := title
        snake_grows := false }

/-- The guarded update of the frame (lines 123-168); `current_time` is the value
of `SDL_GetTicks()`, stored in a `Uint32`. -/
def update (s : State) (current_time : Nat) (d : Draw) : Option State :=
  if !s.game_over then
    let current_time := current_time % 2 ^ 32
    if (current_time + 2 ^ 32 - s.last_update_time % 2 ^ 32) % 2 ^ 32 > update_interval then
      (simulationStep s d).map (fun s' => { s' with last_update_time := current_time })
    else some s
  else some s

/-- The inner `while (SDL_PollEvent(&e))` loop: the pending events in order, each
with the draw it would use. -/
def pollEvents (s : State) (events : List (SDL_Event × Draw)) : State :=
  events.foldl (fun s ed => handleEvent s ed.1 ed.2) s

/-- One iteration of the outer loop: drain the events, then the guarded update. -/
def frame (s : State) (events : List (SDL_Event × Draw)) (current_time : Nat) (d : Draw) :
    Option State :=
  update (pollEvents s events) current_time d

/-! ## Specification vocabulary -/

/-- A rectangle sits on a cell of the grid: both coordinates are multiples of the
segment size inside the screen. -/
def onGrid (r : SDL_FRect) : Prop :=
  r.x % SEGMENT_SIZE = 0 ∧ 0 ≤ r.x ∧ r.x < SCREEN_WIDTH ∧
  r.y % SEGMENT_SIZE = 0 ∧ 0 ≤ r.y ∧ r.y < SCREEN_HEIGHT

instance (r : SDL_FRect) : Decidable (onGrid r) := by
  unfold onGrid; infer_instance

/-- The direction exactly opposite to a direction. -/
def opposite : Direction → Direction
  | .UP => .DOWN
  | .DOWN => .UP
  | .LEFT => .RIGHT
  | .RIGHT => .LEFT

/-- The direction a key asks for: the arrow keys and W, A, S, D; no other key asks for one. -/
def requestedDirection : SDL_Scancode → Option Direction
  | .SDL_SCANCODE_UP | .SDL_SCANCODE_W => some Direction.UP
  | .SDL_SCANCODE_DOWN | .SDL_SCANCODE_S => some Direction.DOWN
  | .SDL_SCANCODE_LEFT | .SDL_SCANCODE_A => some Direction.LEFT
  | .SDL_SCANCODE_RIGHT | .SDL_SCANCODE_D => some Direction.RIGHT
  | _ => none

/-- The restart key event. -/
def restartKey : SDL_Event := SDL_Event.SDL_EVENT_KEY_DOWN SDL_Scancode.SDL_SCANCODE_R

/-- The event is a press of the restart key that the handler accepts. -/
def restartAccepted (s : State) (e : SDL_Event) : Bool :=
  s.game_over && e == SDL_Event.SDL_EVENT_KEY_DOWN SDL_Scancode.SDL_SCANCODE_R

/-- The step from `s` consumes the food: no self collision and the new head is on the food. -/
def consumesFood (s : State) : Bool :=
  match s.snake with
  | [] => false
  | front :: _ =>
    !(s.game_over || selfCollision (candidateHead s front) s.snake) &&
      samePos (candidateHead s front) s.food

/-- The guard of the update: the game is running and the tick interval has elapsed. -/
def tickDue (s : State) (current_time : Nat) : Bool :=
  !s.game_over &&
    decide ((current_time % 2 ^ 32 + 2 ^ 32 - s.last_update_time % 2 ^ 32) % 2 ^ 32
      > update_interval)

/-- The states the loop can be in: the state at loop entry, closed under handled
events and guarded updates, every draw being in the range of the distributions. -/
inductive Reachable : State → Prop where
  | start (food : SDL_FRect) (d : Draw) (hd : validDraw d) :
      Reachable (initialState food d)
  | event (s : State) (e : SDL_Event) (d : Draw) (hs : Reachable s) (hd : validDraw d) :
      Reachable (handleEvent s e d)
  | update (s s' : State) (current_time : Nat) (d : Draw) (hs : Reachable s)
      (hd : validDraw d) (hstep : update s current_time d = some s') :
      Reachable s'

/-- The reachable states together with the number of food items consumed since the
last reset (the one at loop entry or the last accepted restart). -/
inductive ReachableEaten : State → Nat → Prop where
  | start (food : SDL_FRect) (d : Draw) (hd : validDraw d) :
      ReachableEaten (initialState food d) 0
  | event (s : State) (n : Nat) (e : SDL_Event) (d : Draw) (hs : ReachableEaten s n)
      (hd : validDraw d) :
      ReachableEaten (handleEvent s e d) (if restartAccepted s e then 0 else n)
  | update (s s' : State) (n : Nat) (current_time : Nat) (d : Draw)
      (hs : ReachableEaten s n) (hd : validDraw d)
      (hstep : update s current_time d = some s') :
      ReachableEaten s' (if tickDue s current_time && consumesFood s then n + 1 else n)

/-- The snake built by `resetGame`. -/
def startSnake : List SDL_FRect :=
  [⟨100, 300, 20, 20⟩, ⟨80, 300, 20, 20⟩, ⟨60, 300, 20, 20⟩]

/-- The invariant carried along every run: at least three segments, no pending
growth between steps, and everything on the grid. -/
def Inv (s : State) : Prop :=
  3 ≤ s.snake.length ∧ s.snake_grows = false ∧ (∀ seg ∈ s.snake, onGrid seg) ∧ onGrid s.food

/-- No two segments of the snake are on the same cell. -/
def distinctCells (snake : List SDL_FRect) : Prop :=
  snake.Pairwise (fun a b => ¬(a.x = b.x ∧ a.y = b.y))

instance (snake : List SDL_FRect) : Decidable (distinctCells snake) := by
  unfold distinctCells; infer_instance

/-- Two rectangles are neighbours on the torus: same row and one cell apart
horizontally modulo the screen width, or same column and one cell apart vertically
modulo the screen height. -/
def adjacent (a b : SDL_FRect) : Prop :=
  (a.y = b.y ∧
    ((a.x - b.x) % SCREEN_WIDTH = SEGMENT_SIZE ∨ (b.x - a.x) % SCREEN_WIDTH = SEGMENT_SIZE)) ∨
  (a.x = b.x ∧
    ((a.y - b.y) % SCREEN_HEIGHT = SEGMENT_SIZE ∨ (b.y - a.y) % SCREEN_HEIGHT = SEGMENT_SIZE))

instance (a b : SDL_FRect) : Decidable (adjacent a b) := by
  unfold adjacent; infer_instance

/-- Every two consecutive segments of the snake are neighbours on the torus. -/
def connected (snake : List SDL_FRect) : Prop :=
  snake.Chain' adjacent

/-- The head is the segment behind it moved one cell, with wraparound, in the
current direction. -/
def headFollows (s : State) : Prop :=
  ∃ front seg1 rest, s.snake = front :: seg1 :: rest ∧
    front = wrapHead (moveHead s.current_direction seg1)

/-- The shape invariant carried along every run: distinct cells, connected body, a
latch that is not the opposite of the current direction, a head that follows its
neck while the game runs, and at least four segments once the game is over. -/
def Shape (s : State) : Prop :=
  distinctCells s.snake ∧ connected s.snake ∧
    s.next_direction ≠ opposite s.current_direction ∧
    (s.game_over = false → headFollows s) ∧
    (s.game_over = true → 4 ≤ s.snake.length)

/-- A state at loop entry whose food lies one cell ahead of the head. -/
def demoStart : State := initialState ⟨0, 0, 0, 0⟩ ⟨6, 15⟩

/-- The state `demoStart` after the key Up and one update at time 101. -/
def demoTurned : State :=
  { snake := [⟨100, 280, 20, 20⟩, ⟨100, 300, 20, 20⟩, ⟨80, 300, 20, 20⟩]
    current_direction := Direction.UP
    food := ⟨120, 300, 20, 20⟩
    next_direction := Direction.UP
    game_over := false
    snake_grows := false
    last_update_time := 101
    quit := false
    title := "SnakeGame - Score: 0" }

/-- The keys Up then Left, pressed while the snake travels Right. -/
def demoKeys : List (SDL_Event × Draw) :=
  [(.SDL_EVENT_KEY_DOWN .SDL_SCANCODE_UP, ⟨0, 0⟩),
   (.SDL_EVENT_KEY_DOWN .SDL_SCANCODE_LEFT, ⟨0, 0⟩)]

/-- A running snake of five segments whose head, moving Down, runs into its own body. -/
def demoCoiled : State :=
  { snake := [⟨100, 280, 20, 20⟩, ⟨80, 280, 20, 20⟩, ⟨80, 300, 20, 20⟩,
      ⟨100, 300, 20, 20⟩, ⟨120, 300, 20, 20⟩]
    current_direction := Direction.RIGHT
    food := ⟨200, 200, 20, 20⟩
    next_direction := Direction.DOWN
    game_over := false
    snake_grows := false
    last_update_time := 0
    quit := false
    title := "SnakeGame - Score: 2" }

/-- The state `demoStart` after the key Up: travelling Right with Up latched. -/
def demoLatchedUp : State :=
  handleEvent demoStart (.SDL_EVENT_KEY_DOWN .SDL_SCANCODE_UP) ⟨0, 0⟩

/-- The state `demoCoiled` after its tick: the game is over. -/
def demoOver : State :=
  { demoCoiled with current_direction := Direction.DOWN, game_over := true }

/-- The outer loop run for a list of frames, each given by its pending events,
the clock value read in it and the draw of its tick. -/
def runFrames (s : State) : List (List (SDL_Event × Draw) × Nat × Draw) → Option State
  | [] => some s
  | f :: fs => (frame s f.1 f.2.1 f.2.2).bind (fun s' => runFrames s' fs)

/-- Every draw of the frames is in the range of the distributions. -/
def validFrames (fs : List (List (SDL_Event × Draw) × Nat × Draw)) : Prop :=
  ∀ f ∈ fs, (∀ ed ∈ f.1, validDraw ed.2) ∧ validDraw f.2.2

instance (fs : List (List (SDL_Event × Draw) × Nat × Draw)) : Decidable (validFrames fs) := by
  unfold validFrames; infer_instance

/-- The states reachable from loop entry without any accepted restart. -/
inductive ReachableNoRestart : State → Prop where
  | start (food : SDL_FRect) (d : Draw) (hd : validDraw d) :
      ReachableNoRestart (initialState food d)
  | event (s : State) (e : SDL_Event) (d : Draw) (hs : ReachableNoRestart s)
      (hd : validDraw d) (hr : restartAccepted s e = false) :
      ReachableNoRestart (handleEvent s e d)
  | update (s s' : State) (current_time : Nat) (d : Draw) (hs : ReachableNoRestart s)
      (hd : validDraw d) (hstep : update s current_time d = some s') :
      ReachableNoRestart s'

/-- A key press with a draw that is not used unless the key restarts the game. -/
def keyDown (scancode : SDL_Scancode) : SDL_Event × Draw :=
  (SDL_Event.SDL_EVENT_KEY_DOWN scancode, ⟨0, 0⟩)

/-- From `demoStart`: eat the food ahead, then turn Down and Left: four segments
coiled on a 2x2 block, the tail right above the head. -/
def demoBlockFrames : List (List (SDL_Event × Draw) × Nat × Draw) :=
  [([], 101, ⟨3, 4⟩),
   ([keyDown .SDL_SCANCODE_DOWN], 202, ⟨0, 0⟩),
   ([keyDown .SDL_SCANCODE_LEFT], 303, ⟨0, 0⟩)]

/-- The running state reached by `demoBlockFrames`. -/
def demoBlock : State :=
  { snake := [⟨100, 320, 20, 20⟩, ⟨120, 320, 20, 20⟩, ⟨120, 300, 20, 20⟩,
      ⟨100, 300, 20, 20⟩]
    current_direction := Direction.LEFT
    food := ⟨60, 80, 20, 20⟩
    next_direction := Direction.LEFT
    game_over := false
    snake_grows := false
    last_update_time := 303
    quit := false
    title := "SnakeGame - Score: 1" }

/-- The state `demoBlock` after the key Up and the tick at time 404: the head ran
into the tail cell and the game is over. -/
def demoDead : State :=
  { demoBlock with
    current_direction := Direction.UP
    next_direction := Direction.UP
    game_over := true
    last_update_time := 404 }

/-- The state `demoDead` after the restart key with the draw (20, 20). -/
def demoRestarted : State :=
  handleEvent demoDead restartKey ⟨20, 20⟩

/-- The state at loop entry when the first draw is column 5, row 15: the food is
under the head. -/
def demoUnder : State := initialState ⟨0, 0, 0, 0⟩ ⟨5, 15⟩

/-- From `demoUnder`: Down, Left, Up, three ticks that lead the head around the food. -/
def demoAroundFrames : List (List (SDL_Event × Draw) × Nat × Draw) :=
  [([keyDown .SDL_SCANCODE_DOWN], 101, ⟨0, 0⟩),
   ([keyDown .SDL_SCANCODE_LEFT], 202, ⟨0, 0⟩),
   ([keyDown .SDL_SCANCODE_UP], 303, ⟨0, 0⟩)]

/-- The state reached from `demoUnder` by `demoAroundFrames`: the food is still
where the reset put it, one cell to the right of the head. -/
def demoAround : State :=
  { snake := [⟨80, 300, 20, 20⟩, ⟨80, 320, 20, 20⟩, ⟨100, 320, 20, 20⟩]
    current_direction := Direction.UP
    food := ⟨100, 300, 20, 20⟩
    next_direction := Direction.UP
    game_over := false
    snake_grows := false
    last_update_time := 303
    quit := false
    title := "SnakeGame - Score: 0" }

/-! ## Basic facts -/

theorem disXMax_eq : disXMax = 39 := by decide

theorem disYMax_eq : disYMax = 29 := by decide

theorem resetGame_eq (snake : List SDL_FRect) (direction : Direction) (food : SDL_FRect)
    (d : Draw) :
    resetGame snake direction food d
      = (startSnake, Direction.RIGHT, ⟨d.col * 20, d.row * 20, 20, 20⟩) := by
  rfl

theorem onGrid_spawnFood (food : SDL_FRect) (d : Draw) (hd : validDraw d) :
    onGrid (spawnFood food d) := by
  unfold validDraw at hd
  rw [disXMax_eq, disYMax_eq] at hd
  simp only [onGrid, spawnFood, SEGMENT_SIZE, SCREEN_WIDTH, SCREEN_HEIGHT]
  omega

theorem onGrid_startSnake : ∀ seg ∈ startSnake, onGrid seg := by
  decide

theorem onGrid_wrap_move (dir : Direction) (front : SDL_FRect) (h : onGrid front) :
    onGrid (wrapHead (moveHead dir front)) := by
  simp only [onGrid, SEGMENT_SIZE, SCREEN_WIDTH, SCREEN_HEIGHT] at h
  cases dir <;>
    simp only [onGrid, wrapHead, moveHead, SEGMENT_SIZE, SCREEN_WIDTH, SCREEN_HEIGHT] <;>
    split_ifs <;> (try dsimp only at *) <;> omega

/-! ## The simulation step, case by case -/

theorem simulationStep_collision (s : State) (d : Draw) (front : SDL_FRect)
    (rest : List SDL_FRect) (hs : s.snake = front :: rest)
    (hc : (s.game_over || selfCollision (candidateHead s front) s.snake) = true) :
    simulationStep s d
      = some { s with current_direction := s.next_direction, game_over := true } := by
  unfold simulationStep
  rw [hs] at hc ⊢
  simp only [hc, if_true]

theorem simulationStep_advance (s : State) (d : Draw) (front : SDL_FRect)
    (rest : List SDL_FRect) (hs : s.snake = front :: rest)
    (hc : (s.game_over || selfCollision (candidateHead s front) s.snake) = false) :
    simulationStep s d
      = some { s with
          current_direction := s.next_direction
          snake :=
            if (if samePos (candidateHead s front) s.food then true else s.snake_grows) then
              candidateHead s front :: s.snake
            else (candidateHead s front :: s.snake).dropLast
          food :=
            if samePos (candidateHead s front) s.food then spawnFood s.food d else s.food
          title :=
            if samePos (candidateHead s front) s.food then
              scoreTitle (sizeMinus3 (candidateHead s front :: s.snake).length)
            else s.title
          snake_grows := false } := by
  unfold simulationStep
  rw [hs] at hc ⊢
  simp only [hc]
  rfl

theorem simulationStep_isSome (s : State) (d : Draw) (hne : s.snake ≠ []) :
    ∃ s', simulationStep s d = some s' := by
  cases hs : s.snake with
  | nil => exact absurd hs hne
  | cons front rest =>
    cases hc : (s.game_over || selfCollision (candidateHead s front) s.snake) with
    | true => exact ⟨_, simulationStep_collision s d front rest hs hc⟩
    | false => exact ⟨_, simulationStep_advance s d front rest hs hc⟩

/-! ## The invariant along every run -/

theorem inv_initialState (food : SDL_FRect) (d : Draw) (hd : validDraw d) :
    Inv (initialState food d) := by
  refine ⟨by simp [initialState, resetGame_eq, startSnake], rfl, ?_, ?_⟩
  · simpa only [initialState, resetGame_eq] using onGrid_startSnake
  · exact onGrid_spawnFood food d hd

theorem inv_handleEvent (s : State) (e : SDL_Event) (d : Draw) (hs : Inv s)
    (hd : validDraw d) : Inv (handleEvent s e d) := by
  cases e with
  | SDL_EVENT_QUIT => exact hs
  | OTHER => exact hs
  | SDL_EVENT_KEY_DOWN scancode =>
    unfold handleEvent
    dsimp only
    split_ifs
    · refine ⟨by simp [resetGame_eq, startSnake], hs.2.1, ?_, ?_⟩
      · simpa only [resetGame_eq] using onGrid_startSnake
      · exact onGrid_spawnFood s.food d hd
    · exact hs

theorem inv_simulationStep (s s' : State) (d : Draw) (hs : Inv s) (hd : validDraw d)
    (hstep : simulationStep s d = some s') : Inv s' := by
  obtain ⟨hlen, hgrow, hsnake, hfood⟩ := hs
  cases hsn : s.snake with
  | nil => rw [hsn] at hlen; simp at hlen
  | cons front rest =>
    have hfront : onGrid front := hsnake front (by rw [hsn]; exact List.mem_cons_self _ _)
    have hcand : onGrid (candidateHead s front) := onGrid_wrap_move _ _ hfront
    cases hc : (s.game_over || selfCollision (candidateHead s front) s.snake) with
    | true =>
      rw [simulationStep_collision s d front rest hsn hc] at hstep
      cases hstep
      exact ⟨hlen, hgrow, hsnake, hfood⟩
    | false =>
      rw [simulationStep_advance s d front rest hsn hc] at hstep
      cases hstep
      have hall : ∀ seg ∈ candidateHead s front :: s.snake, onGrid seg := by
        intro seg hseg
        rcases List.mem_cons.mp hseg with h | h
        · rw [h]; exact hcand
        · exact hsnake seg h
      refine ⟨?_, rfl, ?_, ?_⟩
      · dsimp only
        split_ifs <;> simp only [List.length_dropLast, List.length_cons] <;> omega
      · dsimp only
        split_ifs <;>
          first
          | exact hall
          | exact fun seg hseg => hall seg (List.mem_of_mem_dropLast hseg)
      · dsimp only
        split_ifs
        · exact onGrid_spawnFood s.food d hd
        · exact hfood

theorem update_cases (s s' : State) (current_time : Nat) (d : Draw)
    (hstep : update s current_time d = some s') :
    (tickDue s current_time = false ∧ s' = s) ∨
      (tickDue s current_time = true ∧ s.game_over = false ∧
        ∃ u, simulationStep s d = some u ∧
          s' = { u with last_update_time := current_time % 2 ^ 32 }) := by
  simp only [update] at hstep
  split_ifs at hstep with h1 h2
  · cases hsim : simulationStep s d with
    | none => rw [hsim] at hstep; simp at hstep
    | some u =>
      rw [hsim] at hstep
      simp only [Option.map_some', Option.some.injEq] at hstep
      refine Or.inr ⟨?_, by simpa using h1, u, rfl, hstep.symm⟩
      simp only [tickDue, h1, Bool.true_and, decide_eq_true_eq]
      exact h2
  · refine Or.inl ⟨?_, (Option.some.inj hstep).symm⟩
    simp only [tickDue, h1, Bool.true_and, decide_eq_false_iff_not]
    exact h2
  · refine Or.inl ⟨?_, (Option.some.inj hstep).symm⟩
    simp only [Bool.not_eq_true, Bool.not_eq_true'] at h1
    simp [tickDue, h1]

theorem inv_update (s s' : State) (current_time : Nat) (d : Draw) (hs : Inv s)
    (hd : validDraw d) (hstep : update s current_time d = some s') : Inv s' := by
  rcases update_cases s s' current_time d hstep with ⟨_, h⟩ | ⟨_, _, u, hu, h⟩
  · rw [h]; exact hs
  · rw [h]; exact inv_simulationStep s u d hs hd hu

theorem inv_of_reachable (s : State) (h : Reachable s) : Inv s := by
  induction h with
  | start food d hd => exact inv_initialState food d hd
  | event s e d _ hd ih => exact inv_handleEvent s e d ih hd
  | update s s' current_time d _ hd hstep ih => exact inv_update s s' current_time d ih hd hstep

theorem reachable_of_reachableEaten (s : State) (n : Nat) (h : ReachableEaten s n) :
    Reachable s := by
  induction h with
  | start food d hd => exact Reachable.start food d hd
  | event s n e d _ hd ih => exact Reachable.event s e d ih hd
  | update s s' n current_time d _ hd hstep ih =>
    exact Reachable.update s s' current_time d ih hd hstep

theorem reachableEaten_of_reachable (s : State) (h : Reachable s) :
    ∃ n, ReachableEaten s n := by
  induction h with
  | start food d hd => exact ⟨0, ReachableEaten.start food d hd⟩
  | event s e d _ hd ih =>
    obtain ⟨n, hn⟩ := ih
    exact ⟨_, ReachableEaten.event s n e d hn hd⟩
  | update s s' current_time d _ hd hstep ih =>
    obtain ⟨n, hn⟩ := ih
    exact ⟨_, ReachableEaten.update s s' n current_time d hn hd hstep⟩

theorem samePos_iff (a b : SDL_FRect) : samePos a b = true ↔ a.x = b.x ∧ a.y = b.y := by
  simp [samePos]

theorem samePos_eq_false_iff (a b : SDL_FRect) :
    samePos a b = false ↔ ¬(a.x = b.x ∧ a.y = b.y) := by
  rw [← samePos_iff]; simp

theorem demoTurned_reachable : Reachable demoTurned :=
  Reachable.update
    (handleEvent demoStart (.SDL_EVENT_KEY_DOWN .SDL_SCANCODE_UP) ⟨0, 0⟩) demoTurned 101 ⟨0, 0⟩
    (Reachable.event demoStart _ ⟨0, 0⟩ (Reachable.start _ _ (by decide)) (by decide))
    (by decide) (by decide)

/-! ## Directions and the latch -/

theorem simulationStep_directions (s s' : State) (d : Draw)
    (hstep : simulationStep s d = some s') :
    s'.current_direction = s.next_direction ∧ s'.next_direction = s.next_direction := by
  cases hsn : s.snake with
  | nil => simp [simulationStep, hsn] at hstep
  | cons front rest =>
    cases hc : (s.game_over || selfCollision (candidateHead s front) s.snake) with
    | true =>
      rw [simulationStep_collision s d front rest hsn hc] at hstep
      cases hstep; exact ⟨rfl, rfl⟩
    | false =>
      rw [simulationStep_advance s d front rest hsn hc] at hstep
      cases hstep; exact ⟨rfl, rfl⟩

theorem simulationStep_snake_ne_nil (s s' : State) (d : Draw)
    (hstep : simulationStep s d = some s') : s'.snake ≠ [] := by
  cases hsn : s.snake with
  | nil => simp [simulationStep, hsn] at hstep
  | cons front rest =>
    cases hc : (s.game_over || selfCollision (candidateHead s front) s.snake) with
    | true =>
      rw [simulationStep_collision s d front rest hsn hc] at hstep
      cases hstep; simp [hsn]
    | false =>
      rw [simulationStep_advance s d front rest hsn hc] at hstep
      cases hstep
      dsimp only
      rw [hsn]
      split_ifs <;> simp

theorem latchDirection_ne_opposite (current next : Direction) (scancode : SDL_Scancode)
    (h : next ≠ opposite current) :
    latchDirection current next scancode ≠ opposite current := by
  cases scancode <;> cases current <;> cases next <;> simp_all [latchDirection, opposite]

/-- An event that is not an accepted restart changes at most `quit` and the latch,
and the latch stays different from the opposite of the current direction. -/
theorem handleEvent_no_restart (s : State) (e : SDL_Event) (d : Draw)
    (h : restartAccepted s e = false) :
    (handleEvent s e d).snake = s.snake ∧
      (handleEvent s e d).current_direction = s.current_direction ∧
      (handleEvent s e d).food = s.food ∧
      (handleEvent s e d).game_over = s.game_over ∧
      (handleEvent s e d).snake_grows = s.snake_grows ∧
      (handleEvent s e d).last_update_time = s.last_update_time ∧
      (handleEvent s e d).title = s.title ∧
      (s.next_direction ≠ opposite s.current_direction →
        (handleEvent s e d).next_direction ≠ opposite s.current_direction) := by
  cases e with
  | SDL_EVENT_QUIT => exact ⟨rfl, rfl, rfl, rfl, rfl, rfl, rfl, id⟩
  | OTHER => exact ⟨rfl, rfl, rfl, rfl, rfl, rfl, rfl, id⟩
  | SDL_EVENT_KEY_DOWN scancode =>
    have hcond : (s.game_over && scancode == SDL_Scancode.SDL_SCANCODE_R) = false := by
      cases hg : s.game_over
      · rfl
      · cases scancode <;> simp_all [restartAccepted]
    simp only [handleEvent, hcond]
    exact ⟨rfl, rfl, rfl, rfl, rfl, rfl, rfl, latchDirection_ne_opposite _ _ _⟩

theorem restartAccepted_of_running (s : State) (e : SDL_Event) (h : s.game_over = false) :
    restartAccepted s e = false := by
  simp [restartAccepted, h]

/-- While the game is running no event restarts it: draining any events keeps the
snake, the current direction, the food and the title, and the latch stays different
from the opposite of the current direction. -/
theorem pollEvents_running (events : List (SDL_Event × Draw)) (s : State)
    (hrun : s.game_over = false) :
    (pollEvents s events).snake = s.snake ∧
      (pollEvents s events).current_direction = s.current_direction ∧
      (pollEvents s events).food = s.food ∧
      (pollEvents s events).game_over = false ∧
      (pollEvents s events).snake_grows = s.snake_grows ∧
      (pollEvents s events).last_update_time = s.last_update_time ∧
      (pollEvents s events).title = s.title ∧
      (s.next_direction ≠ opposite s.current_direction →
        (pollEvents s events).next_direction ≠ opposite s.current_direction) := by
  induction events generalizing s with
  | nil => exact ⟨rfl, rfl, rfl, hrun, rfl, rfl, rfl, id⟩
  | cons ed rest ih =>
    obtain ⟨h1, h2, h3, h4, h5, h6, h7, h8⟩ :=
      handleEvent_no_restart s ed.1 ed.2 (restartAccepted_of_running s ed.1 hrun)
    obtain ⟨k1, k2, k3, k4, k5, k6, k7, k8⟩ := ih (handleEvent s ed.1 ed.2) (h4.trans hrun)
    simp only [pollEvents, List.foldl_cons] at *
    refine ⟨k1.trans h1, k2.trans h2, k3.trans h3, k4, k5.trans h5, k6.trans h6,
      k7.trans h7, ?_⟩
    intro hne
    rw [← h2]
    exact k8 (by rw [h2]; exact h8 hne)

theorem update_tick (s : State) (current_time : Nat) (d : Draw)
    (htick : tickDue s current_time = true) :
    update s current_time d
      = (simulationStep s d).map
          (fun s' => { s' with last_update_time := current_time % 2 ^ 32 }) := by
  simp only [tickDue, Bool.and_eq_true, decide_eq_true_eq] at htick
  simp only [update, htick.1, htick.2, if_true]

theorem opposite_ne_self (dir : Direction) : dir ≠ opposite dir := by
  cases dir <;> simp [opposite]

theorem selfCollision_of_getElem? (new_head seg : SDL_FRect) (snake : List SDL_FRect)
    (k : Nat) (hk : 1 ≤ k) (hseg : snake[k]? = some seg)
    (hx : new_head.x = seg.x) (hy : new_head.y = seg.y) :
    selfCollision new_head snake = true := by
  have hmem : seg ∈ snake.drop 1 := by
    apply List.getElem?_mem (n := k - 1)
    rw [List.getElem?_drop, show 1 + (k - 1) = k by omega]
    exact hseg
  unfold selfCollision
  rw [List.any_eq_true]
  exact ⟨seg, hmem, (samePos_iff _ _).mpr ⟨hx, hy⟩⟩

/-! ## Food, length and title across a step -/

theorem consumesFood_cons (s : State) (front : SDL_FRect) (rest : List SDL_FRect)
    (hs : s.snake = front :: rest) :
    consumesFood s
      = (!(s.game_over || selfCollision (candidateHead s front) s.snake) &&
          samePos (candidateHead s front) s.food) := by
  unfold consumesFood
  rw [hs]

/-- What a step does to food, length and title, in terms of `consumesFood`. -/
theorem simulationStep_effect (s s' : State) (d : Draw) (hgrow : s.snake_grows = false)
    (hstep : simulationStep s d = some s') :
    (consumesFood s = true →
      s'.food = spawnFood s.food d ∧ s'.snake.length = s.snake.length + 1 ∧
        s'.title = scoreTitle (sizeMinus3 s'.snake.length)) ∧
    (consumesFood s = false →
      s'.food = s.food ∧ s'.snake.length = s.snake.length ∧ s'.title = s.title) := by
  cases hsn : s.snake with
  | nil => simp [simulationStep, hsn] at hstep
  | cons front rest =>
    have hcf := consumesFood_cons s front rest hsn
    cases hc : (s.game_over || selfCollision (candidateHead s front) s.snake) with
    | true =>
      rw [simulationStep_collision s d front rest hsn hc] at hstep
      cases hstep
      rw [hc] at hcf
      simp [hcf, hsn]
    | false =>
      rw [simulationStep_advance s d front rest hsn hc] at hstep
      cases hstep
      rw [hc] at hcf
      simp only [Bool.not_false, Bool.true_and] at hcf
      rw [hcf]
      dsimp only
      rw [hgrow, hsn]
      cases samePos (candidateHead s front) s.food <;> simp

theorem length_of_reachableEaten (s : State) (n : Nat) (h : ReachableEaten s n) :
    s.snake.length = n + 3 := by
  induction h with
  | start food d hd => rfl
  | event s n e d hs hd ih =>
    cases hr : restartAccepted s e with
    | false =>
      rw [if_neg (by simp), (handleEvent_no_restart s e d hr).1]
      exact ih
    | true =>
      simp only [restartAccepted, Bool.and_eq_true, beq_iff_eq] at hr
      rw [if_pos rfl, hr.2]
      simp [handleEvent, hr.1, resetGame_eq, startSnake]
  | update s s' n current_time d hs hd hstep ih =>
    have hinv := inv_of_reachable s (reachable_of_reachableEaten s n hs)
    rcases update_cases s s' current_time d hstep with ⟨htick, h⟩ | ⟨htick, _, u, hu, h⟩
    · rw [htick, h]
      simpa using ih
    · have heff := simulationStep_effect s u d hinv.2.1 hu
      rw [htick, h]
      cases hcf : consumesFood s with
      | true =>
        simp only [Bool.and_self, if_true]
        rw [(heff.1 hcf).2.1, ih]
      | false =>
        simp only [Bool.and_false, Bool.false_eq_true, if_false]
        rw [(heff.2 hcf).2.1, ih]

/-! ## Plain moves -/

/-- A step of a running state that neither collides nor eats: the head advances
and the tail is dropped. -/
theorem simulationStep_plain (s : State) (d : Draw) (front : SDL_FRect)
    (rest : List SDL_FRect) (hs : s.snake = front :: rest) (hrun : s.game_over = false)
    (hgrow : s.snake_grows = false)
    (hcol : selfCollision (candidateHead s front) s.snake = false)
    (hfood : samePos (candidateHead s front) s.food = false) :
    simulationStep s d
      = some { s with
          current_direction := s.next_direction
          snake := candidateHead s front :: (front :: rest).dropLast
          snake_grows := false } := by
  have hc : (s.game_over || selfCollision (candidateHead s front) s.snake) = false := by
    rw [hrun, hcol]; rfl
  rw [simulationStep_advance s d front rest hs hc, hfood, hgrow, hs]
  rfl

/-- A three-segment snake lying on row 15 and travelling Right, away from the
right edge and with no food ahead, advances by one cell. -/
theorem simulationStep_row (s : State) (d : Draw) (x : Int)
    (hsnake : s.snake = [⟨x, 300, 20, 20⟩, ⟨x - 20, 300, 20, 20⟩, ⟨x - 40, 300, 20, 20⟩])
    (hlo : 0 ≤ x) (hhi : x + 20 < 800)
    (hnext : s.next_direction = Direction.RIGHT) (hrun : s.game_over = false)
    (hgrow : s.snake_grows = false) (hfood : ¬(s.food.x = x + 20 ∧ s.food.y = 300)) :
    ∃ s', simulationStep s d = some s' ∧
      s'.snake = [⟨x + 20, 300, 20, 20⟩, ⟨x, 300, 20, 20⟩, ⟨x - 20, 300, 20, 20⟩] ∧
      s'.next_direction = Direction.RIGHT ∧ s'.game_over = false ∧
      s'.snake_grows = false ∧ s'.food = s.food := by
  have hcand : candidateHead s ⟨x, 300, 20, 20⟩ = ⟨x + 20, 300, 20, 20⟩ := by
    simp only [candidateHead, hnext, wrapHead, moveHead, SEGMENT_SIZE, SCREEN_WIDTH,
      SCREEN_HEIGHT]
    split_ifs <;> (try dsimp only at *) <;> first
      | rfl
      | omega
  have hcol : selfCollision (candidateHead s ⟨x, 300, 20, 20⟩) s.snake = false := by
    rw [hcand, hsnake]
    simp only [selfCollision, List.drop_succ_cons, List.drop_zero, List.any_cons,
      List.any_nil, samePos, Bool.or_false, Bool.or_eq_false_iff, Bool.and_eq_false_imp,
      beq_iff_eq, beq_eq_false_iff_ne]
    constructor <;> intro h <;> omega
  have hpos : samePos (candidateHead s ⟨x, 300, 20, 20⟩) s.food = false := by
    rw [hcand, samePos_eq_false_iff]
    exact fun h => hfood ⟨h.1.symm, h.2.symm⟩
  refine ⟨_, simulationStep_plain s d _ _ hsnake hrun hgrow hcol hpos, ?_, hnext, hrun,
    rfl, rfl⟩
  rw [hcand]
  rfl

/-! ## Geometry of one move on the torus -/

theorem wrap_move_x (dir : Direction) (p : SDL_FRect) (h : onGrid p) :
    (wrapHead (moveHead dir p)).x
      = (match dir with
        | .RIGHT => if p.x = 780 then 0 else p.x + 20
        | .LEFT => if p.x = 0 then 780 else p.x - 20
        | _ => p.x) := by
  simp only [onGrid, SEGMENT_SIZE, SCREEN_WIDTH, SCREEN_HEIGHT] at h
  cases dir <;>
    simp only [wrapHead, moveHead, SEGMENT_SIZE, SCREEN_WIDTH, SCREEN_HEIGHT] <;>
    split_ifs <;> (try dsimp only at *) <;> omega

theorem wrap_move_y (dir : Direction) (p : SDL_FRect) (h : onGrid p) :
    (wrapHead (moveHead dir p)).y
      = (match dir with
        | .DOWN => if p.y = 580 then 0 else p.y + 20
        | .UP => if p.y = 0 then 580 else p.y - 20
        | _ => p.y) := by
  simp only [onGrid, SEGMENT_SIZE, SCREEN_WIDTH, SCREEN_HEIGHT] at h
  cases dir <;>
    simp only [wrapHead, moveHead, SEGMENT_SIZE, SCREEN_WIDTH, SCREEN_HEIGHT] <;>
    split_ifs <;> (try dsimp only at *) <;> omega

theorem adjacent_wrap_move (dir : Direction) (p : SDL_FRect) (h : onGrid p) :
    adjacent (wrapHead (moveHead dir p)) p := by
  unfold adjacent
  rw [wrap_move_x dir p h, wrap_move_y dir p h]
  simp only [onGrid, SEGMENT_SIZE, SCREEN_WIDTH, SCREEN_HEIGHT] at h ⊢
  cases dir <;> dsimp only <;> split_ifs <;> omega

theorem wrap_move_ne_self (dir : Direction) (p : SDL_FRect) (h : onGrid p) :
    ¬((wrapHead (moveHead dir p)).x = p.x ∧ (wrapHead (moveHead dir p)).y = p.y) := by
  rw [wrap_move_x dir p h, wrap_move_y dir p h]
  simp only [onGrid, SEGMENT_SIZE, SCREEN_WIDTH, SCREEN_HEIGHT] at h
  cases dir <;> dsimp only <;> split_ifs <;> omega

/-- Moving on from a cell just entered never leads back to the cell left, unless
the second move is the opposite of the first. -/
theorem wrap_move_ne_back (d1 d2 : Direction) (p : SDL_FRect) (h : onGrid p)
    (hd : d2 ≠ opposite d1) :
    ¬((wrapHead (moveHead d2 (wrapHead (moveHead d1 p)))).x = p.x ∧
      (wrapHead (moveHead d2 (wrapHead (moveHead d1 p)))).y = p.y) := by
  have hq := onGrid_wrap_move d1 p h
  rw [wrap_move_x d2 _ hq, wrap_move_y d2 _ hq, wrap_move_x d1 p h, wrap_move_y d1 p h]
  simp only [onGrid, SEGMENT_SIZE, SCREEN_WIDTH, SCREEN_HEIGHT] at h
  cases d1 <;> cases d2 <;> simp only [opposite, ne_eq, not_true_eq_false] at hd <;>
    dsimp only <;> split_ifs <;> omega

/-- A move from the head never reaches the second segment behind it. -/
theorem wrap_move_ne_third (dir : Direction) (p q r : SDL_FRect) (hp : onGrid p)
    (hq : onGrid q) (hr : onGrid r) (hpq : adjacent p q) (hqr : adjacent q r)
    (hne : ¬(p.x = r.x ∧ p.y = r.y)) :
    ¬((wrapHead (moveHead dir p)).x = r.x ∧ (wrapHead (moveHead dir p)).y = r.y) := by
  rw [wrap_move_x dir p hp, wrap_move_y dir p hp]
  simp only [onGrid, SEGMENT_SIZE, SCREEN_WIDTH, SCREEN_HEIGHT] at hp hq hr
  simp only [adjacent, SEGMENT_SIZE, SCREEN_WIDTH, SCREEN_HEIGHT] at hpq hqr
  cases dir <;> dsimp only <;> split_ifs <;> omega

/-! ## The shape invariant along every run -/

theorem selfCollision_eq_false (c : SDL_FRect) (snake : List SDL_FRect)
    (h : selfCollision c snake = false) :
    ∀ a ∈ snake.drop 1, ¬(c.x = a.x ∧ c.y = a.y) := by
  intro a ha hpos
  unfold selfCollision at h
  rw [List.any_eq_false] at h
  exact h a ha ((samePos_iff c a).mpr hpos)

/-- A snake of three segments that follows its neck cannot run into itself. -/
theorem selfCollision_three (cur next : Direction) (front seg1 seg2 : SDL_FRect)
    (h1 : onGrid seg1) (h2 : onGrid seg2) (hfront : front = wrapHead (moveHead cur seg1))
    (hnext : next ≠ opposite cur) (hadj : adjacent seg1 seg2)
    (hne : ¬(front.x = seg2.x ∧ front.y = seg2.y)) :
    selfCollision (wrapHead (moveHead next front)) [front, seg1, seg2] = false := by
  have hf : onGrid front := by rw [hfront]; exact onGrid_wrap_move cur seg1 h1
  have hfa : adjacent front seg1 := by rw [hfront]; exact adjacent_wrap_move cur seg1 h1
  have hneck : samePos (wrapHead (moveHead next front)) seg1 = false := by
    rw [samePos_eq_false_iff, hfront]
    exact wrap_move_ne_back cur next seg1 h1 hnext
  have htail : samePos (wrapHead (moveHead next front)) seg2 = false := by
    rw [samePos_eq_false_iff]
    exact wrap_move_ne_third next front seg1 seg2 hf h1 h2 hfa hadj hne
  simp [selfCollision, hneck, htail]

theorem connected_startSnake : connected startSnake := by
  simp only [connected, startSnake, List.chain'_cons, List.chain'_singleton, and_true]
  decide

theorem shape_of_start (s : State) (hsnake : s.snake = startSnake)
    (hcur : s.current_direction = Direction.RIGHT)
    (hnext : s.next_direction = Direction.RIGHT) (hrun : s.game_over = false) :
    Shape s := by
  refine ⟨?_, ?_, ?_, ?_, ?_⟩
  · rw [hsnake]; decide
  · rw [hsnake]; exact connected_startSnake
  · rw [hcur, hnext]; decide
  · intro _
    exact ⟨_, _, _, hsnake, by rw [hcur]; decide⟩
  · intro h
    rw [hrun] at h
    cases h

theorem shape_handleEvent (s : State) (e : SDL_Event) (d : Draw) (hs : Shape s) :
    Shape (handleEvent s e d) := by
  cases hr : restartAccepted s e with
  | false =>
    obtain ⟨h1, h2, -, h4, -, -, -, h8⟩ := handleEvent_no_restart s e d hr
    obtain ⟨k1, k2, k3, k4, k5⟩ := hs
    refine ⟨by rw [h1]; exact k1, by rw [h1]; exact k2, by rw [h2]; exact h8 k3, ?_, ?_⟩
    · intro hrun
      obtain ⟨front, seg1, rest, hsn, hf⟩ := k4 (h4 ▸ hrun)
      exact ⟨front, seg1, rest, by rw [h1]; exact hsn, by rw [h2]; exact hf⟩
    · intro hover
      rw [h1]
      exact k5 (h4 ▸ hover)
  | true =>
    simp only [restartAccepted, Bool.and_eq_true, beq_iff_eq] at hr
    rw [hr.2]
    apply shape_of_start <;> simp [handleEvent, hr.1, resetGame_eq]

/-- The snake, the directions and the flag after a step without collision. -/
theorem simulationStep_advance_fields (s s' : State) (d : Draw) (front : SDL_FRect)
    (rest : List SDL_FRect) (hs : s.snake = front :: rest)
    (hc : (s.game_over || selfCollision (candidateHead s front) s.snake) = false)
    (hgrow : s.snake_grows = false) (hstep : simulationStep s d = some s') :
    s'.snake
        = (if samePos (candidateHead s front) s.food then candidateHead s front :: s.snake
          else candidateHead s front :: s.snake.dropLast) ∧
      s'.current_direction = s.next_direction ∧ s'.next_direction = s.next_direction ∧
      s'.game_over = s.game_over := by
  rw [simulationStep_advance s d front rest hs hc] at hstep
  cases hstep
  refine ⟨?_, rfl, rfl, rfl⟩
  dsimp only
  rw [hgrow, hs]
  cases samePos (candidateHead s front) s.food <;> simp [List.dropLast]

theorem shape_simulationStep (s s' : State) (d : Draw) (hinv : Inv s) (hs : Shape s)
    (hrun : s.game_over = false) (hstep : simulationStep s d = some s') : Shape s' := by
  obtain ⟨hlen, hgrow, hgrid, -⟩ := hinv
  obtain ⟨hdist, hconn, hdir, hfollow, -⟩ := hs
  obtain ⟨front, seg1, rest, hsn, hfront⟩ := hfollow hrun
  have hgf : onGrid front := hgrid front (by rw [hsn]; simp)
  have hg1 : onGrid seg1 := hgrid seg1 (by rw [hsn]; simp)
  have hcand : candidateHead s front = wrapHead (moveHead s.next_direction front) := rfl
  cases hc : (s.game_over || selfCollision (candidateHead s front) s.snake) with
  | true =>
    rw [simulationStep_collision s d front (seg1 :: rest) hsn hc] at hstep
    cases hstep
    refine ⟨hdist, hconn, (opposite_ne_self _), ?_, ?_⟩
    · intro h
      cases h
    · intro _
      show 4 ≤ s.snake.length
      by_contra hlt
      have h3 : s.snake.length = 3 := by omega
      rw [hsn] at h3
      match rest, h3 with
      | [seg2], _ =>
        rw [hsn] at hdist hconn hgrid hc
        have hg2 : onGrid seg2 := hgrid seg2 (by simp)
        have hadj : adjacent seg1 seg2 := by
          unfold connected at hconn
          simp only [List.chain'_cons] at hconn
          exact hconn.2.1
        have hne : ¬(front.x = seg2.x ∧ front.y = seg2.y) := by
          unfold distinctCells at hdist
          simp only [List.pairwise_cons] at hdist
          exact hdist.1 seg2 (by simp)
        rw [hrun, hcand,
          selfCollision_three s.current_direction s.next_direction front seg1 seg2 hg1 hg2
            hfront hdir hadj hne] at hc
        cases hc
  | false =>
    obtain ⟨hsnake', hcur', hnext', hover'⟩ :=
      simulationStep_advance_fields s s' d front (seg1 :: rest) hsn hc hgrow hstep
    rw [hrun, Bool.false_or] at hc
    have hnew : ∀ a ∈ s.snake,
        ¬((candidateHead s front).x = a.x ∧ (candidateHead s front).y = a.y) := by
      intro a ha
      rw [hsn] at ha
      rcases List.mem_cons.mp ha with h | h
      · rw [h]; exact wrap_move_ne_self _ front hgf
      · exact selfCollision_eq_false _ _ hc a (by rw [hsn]; simpa using h)
    have hd2 : distinctCells (candidateHead s front :: s.snake) :=
      List.pairwise_cons.mpr ⟨hnew, hdist⟩
    have hc2 : connected (candidateHead s front :: s.snake) := by
      unfold connected
      rw [hsn, List.chain'_cons]
      refine ⟨adjacent_wrap_move _ front hgf, ?_⟩
      rw [← hsn]
      exact hconn
    refine ⟨?_, ?_, ?_, fun _ => ?_, ?_⟩
    · rw [hsnake']
      split_ifs
      · exact hd2
      · exact List.Pairwise.sublist
          (List.Sublist.cons₂ _ (List.dropLast_sublist _)) hd2
    · rw [hsnake']
      split_ifs
      · exact hc2
      · exact List.Chain'.prefix hc2
          ((List.prefix_cons_inj _).mpr (List.dropLast_prefix _))
    · rw [hcur', hnext']
      exact opposite_ne_self _
    · unfold headFollows
      rw [hsnake', hcur', hsn]
      split_ifs
      · exact ⟨_, front, seg1 :: rest, rfl, rfl⟩
      · exact ⟨_, front, (seg1 :: rest).dropLast, rfl, rfl⟩
    · intro h
      rw [hover', hrun] at h
      cases h

theorem shape_update (s s' : State) (current_time : Nat) (d : Draw) (hinv : Inv s)
    (hs : Shape s) (hstep : update s current_time d = some s') : Shape s' := by
  rcases update_cases s s' current_time d hstep with ⟨_, h⟩ | ⟨_, hrun, u, hu, h⟩
  · rw [h]; exact hs
  · rw [h]; exact shape_simulationStep s u d hinv hs hrun hu

theorem shape_of_reachable (s : State) (h : Reachable s) : Shape s := by
  induction h with
  | start food d hd => exact shape_of_start _ rfl rfl rfl rfl
  | event s e d _ hd ih => exact shape_handleEvent s e d ih
  | update s s' current_time d hs hd hstep ih =>
    exact shape_update s s' current_time d (inv_of_reachable s hs) ih hstep

/-! ## Runs of whole frames -/

theorem reachable_pollEvents (events : List (SDL_Event × Draw)) (s : State)
    (hs : Reachable s) (hd : ∀ ed ∈ events, validDraw ed.2) :
    Reachable (pollEvents s events) := by
  induction events generalizing s with
  | nil => exact hs
  | cons ed rest ih =>
    simp only [pollEvents, List.foldl_cons]
    exact ih _ (Reachable.event s ed.1 ed.2 hs (hd ed (List.mem_cons_self _ _)))
      (fun e he => hd e (List.mem_cons_of_mem _ he))

theorem reachable_runFrames (fs : List (List (SDL_Event × Draw) × Nat × Draw))
    (s s' : State) (hs : Reachable s) (hv : validFrames fs)
    (hrun : runFrames s fs = some s') : Reachable s' := by
  induction fs generalizing s with
  | nil =>
    simp only [runFrames, Option.some.injEq] at hrun
    rw [← hrun]; exact hs
  | cons f rest ih =>
    simp only [runFrames] at hrun
    cases hf : frame s f.1 f.2.1 f.2.2 with
    | none => rw [hf] at hrun; simp at hrun
    | some u =>
      rw [hf] at hrun
      have hvf := hv f (List.mem_cons_self _ _)
      have hu : Reachable u :=
        Reachable.update _ u f.2.1 f.2.2 (reachable_pollEvents f.1 s hs hvf.1) hvf.2 hf
      exact ih u hu (fun g hg => hv g (List.mem_cons_of_mem _ hg)) hrun

theorem demoStart_reachable : Reachable demoStart :=
  Reachable.start _ _ (by decide)

theorem demoBlock_reachable : Reachable demoBlock :=
  reachable_runFrames demoBlockFrames demoStart demoBlock demoStart_reachable
    (by decide) (by decide)

theorem demoDead_reachable : Reachable demoDead :=
  reachable_runFrames [([keyDown .SDL_SCANCODE_UP], 404, ⟨0, 0⟩)] demoBlock demoDead
    demoBlock_reachable (by decide) (by decide)

theorem demoRestarted_reachable : Reachable demoRestarted :=
  Reachable.event demoDead restartKey ⟨20, 20⟩ demoDead_reachable (by decide)

theorem demoAround_reachable : Reachable demoAround :=
  reachable_runFrames demoAroundFrames demoUnder demoAround
    (Reachable.start _ _ (by decide)) (by decide) (by decide)

/-! ## Game over: events and collisions -/

theorem restartAccepted_of_ne (s : State) (e : SDL_Event) (h : e ≠ restartKey) :
    restartAccepted s e = false := by
  unfold restartAccepted
  rw [Bool.and_eq_false_iff]
  right
  rw [beq_eq_false_iff_ne]
  exact h

/-- Events none of which is the restart key keep the snake, the food, the current
direction and the game-over flag. -/
theorem pollEvents_no_restart (events : List (SDL_Event × Draw)) (s : State)
    (hne : ∀ ed ∈ events, ed.1 ≠ restartKey) :
    (pollEvents s events).snake = s.snake ∧ (pollEvents s events).food = s.food ∧
      (pollEvents s events).current_direction = s.current_direction ∧
      (pollEvents s events).game_over = s.game_over := by
  induction events generalizing s with
  | nil => exact ⟨rfl, rfl, rfl, rfl⟩
  | cons ed rest ih =>
    obtain ⟨h1, h2, h3, h4, -⟩ :=
      handleEvent_no_restart s ed.1 ed.2
        (restartAccepted_of_ne s ed.1 (hne ed (List.mem_cons_self _ _)))
    obtain ⟨k1, k2, k3, k4⟩ :=
      ih (handleEvent s ed.1 ed.2) (fun e he => hne e (List.mem_cons_of_mem _ he))
    simp only [pollEvents, List.foldl_cons] at *
    exact ⟨k1.trans h1, k2.trans h3, k3.trans h2, k4.trans h4⟩

theorem selfCollision_eq_true (c : SDL_FRect) (snake : List SDL_FRect)
    (h : selfCollision c snake = true) :
    ∃ k seg, 1 ≤ k ∧ snake[k]? = some seg ∧ c.x = seg.x ∧ c.y = seg.y := by
  unfold selfCollision at h
  rw [List.any_eq_true] at h
  obtain ⟨seg, hmem, hpos⟩ := h
  obtain ⟨n, hn⟩ := List.mem_iff_getElem?.mp hmem
  rw [List.getElem?_drop] at hn
  exact ⟨1 + n, seg, by omega, hn, (samePos_iff c seg).mp hpos⟩

theorem simulationStep_game_over (s s' : State) (d : Draw) (hrun : s.game_over = false)
    (hstep : simulationStep s d = some s') (hover : s'.game_over = true) :
    ∃ front, s.snake.head? = some front ∧
      selfCollision (candidateHead s front) s.snake = true := by
  cases hsn : s.snake with
  | nil => simp [simulationStep, hsn] at hstep
  | cons front rest =>
    refine ⟨front, rfl, ?_⟩
    rw [← hsn]
    cases hc : (s.game_over || selfCollision (candidateHead s front) s.snake) with
    | true => rw [hrun] at hc; simpa using hc
    | false =>
      rw [simulationStep_advance s d front rest hsn hc] at hstep
      cases hstep
      rw [hrun] at hover
      cases hover

/-! ## Segments by index, and the title -/

theorem distinctCells_getElem? (snake : List SDL_FRect) (h : distinctCells snake)
    (i j : Nat) (a b : SDL_FRect) (hij : i < j) (ha : snake[i]? = some a)
    (hb : snake[j]? = some b) : ¬(a.x = b.x ∧ a.y = b.y) := by
  obtain ⟨hi, rfl⟩ := List.getElem?_eq_some_iff.mp ha
  obtain ⟨hj, rfl⟩ := List.getElem?_eq_some_iff.mp hb
  exact (List.pairwise_iff_getElem.mp h) i j hi hj hij

theorem connected_getElem? (snake : List SDL_FRect) (h : connected snake)
    (i : Nat) (a b : SDL_FRect) (ha : snake[i]? = some a) (hb : snake[i + 1]? = some b) :
    adjacent a b := by
  unfold connected at h
  induction snake generalizing i with
  | nil => simp at ha
  | cons x rest ih =>
    cases rest with
    | nil => simp at hb
    | cons y rest' =>
      rw [List.chain'_cons] at h
      cases i with
      | zero =>
        simp only [List.getElem?_cons_zero, List.getElem?_cons_succ,
          Option.some.injEq] at ha hb
        rw [← ha, ← hb]
        exact h.1
      | succ n =>
        rw [List.getElem?_cons_succ] at ha hb
        exact ih h.2 n ha hb

theorem reachable_of_noRestart (s : State) (h : ReachableNoRestart s) : Reachable s := by
  induction h with
  | start food d hd => exact Reachable.start food d hd
  | event s e d _ hd _ ih => exact Reachable.event s e d ih hd
  | update s s' current_time d _ hd hstep ih =>
    exact Reachable.update s s' current_time d ih hd hstep

theorem title_of_noRestart (s : State) (h : ReachableNoRestart s) :
    s.title = scoreTitle (s.snake.length - 3) := by
  induction h with
  | start food d hd =>
    have h0 : "SnakeGame - Score: 0" = scoreTitle 0 := by decide
    exact h0
  | event s e d _ hd hr ih =>
    obtain ⟨h1, -, -, -, -, -, h7, -⟩ := handleEvent_no_restart s e d hr
    rw [h1, h7]
    exact ih
  | update s s' current_time d hs hd hstep ih =>
    have hinv := inv_of_reachable s (reachable_of_noRestart s hs)
    rcases update_cases s s' current_time d hstep with ⟨_, h⟩ | ⟨_, _, u, hu, h⟩
    · rw [h]; exact ih
    · have heff := simulationStep_effect s u d hinv.2.1 hu
      rw [h]
      show u.title = scoreTitle (u.snake.length - 3)
      cases hcf : consumesFood s with
      | true =>
        obtain ⟨-, hl, ht⟩ := heff.1 hcf
        have h3 : 3 ≤ u.snake.length := by have := hinv.1; omega
        rw [ht, sizeMinus3, if_pos h3]
      | false =>
        obtain ⟨-, hl, ht⟩ := heff.2 hcf
        rw [ht, hl]
        exact ih

/-! ## The claims -/

/-- C1 (grid invariant). In every state reachable from the state at loop entry by
handled events (restarts included) and guarded updates, with every food draw in
range, each snake segment and the food sit on a cell of the 40x30 grid: `x` is a
multiple of 20 with `0 ≤ x < 800` and `y` is a multiple of 20 with `0 ≤ y < 600`. -/
theorem grid_invariant (s : State) (h : Reachable s) :
    (∀ seg ∈ s.snake,
        seg.x % 20 = 0 ∧ 0 ≤ seg.x ∧ seg.x < 800 ∧ seg.y % 20 = 0 ∧ 0 ≤ seg.y ∧ seg.y < 600) ∧
      (s.food.x % 20 = 0 ∧ 0 ≤ s.food.x ∧ s.food.x < 800 ∧
        s.food.y % 20 = 0 ∧ 0 ≤ s.food.y ∧ s.food.y < 600) :=
  ⟨(inv_of_reachable s h).2.2.1, (inv_of_reachable s h).2.2.2⟩

theorem grid_invariant_witness :
    Reachable demoTurned ∧
      (∀ seg ∈ demoTurned.snake,
        seg.x % 20 = 0 ∧ 0 ≤ seg.x ∧ seg.x < 800 ∧ seg.y % 20 = 0 ∧ 0 ≤ seg.y ∧ seg.y < 600) ∧
      (demoTurned.food.x % 20 = 0 ∧ 0 ≤ demoTurned.food.x ∧ demoTurned.food.x < 800 ∧
        demoTurned.food.y % 20 = 0 ∧ 0 ≤ demoTurned.food.y ∧ demoTurned.food.y < 600) :=
  ⟨demoTurned_reachable, grid_invariant demoTurned demoTurned_reachable⟩

/-- C2 (no 180-degree reversal). Take any state with a non-empty snake (every
reachable state is one) in which a tick is due. The tick runs and commits a
direction; if the game goes on after it (no restart can then occur), then whatever
events are delivered before the next due tick, in any number and order, that tick
runs and the direction it commits is not the opposite of the one committed by the
earlier tick. -/
theorem no_reversal (s : State) (t0 t1 : Nat) (d0 d1 : Draw)
    (events : List (SDL_Event × Draw)) (hne : s.snake ≠ [])
    (htick0 : tickDue s t0 = true) :
    ∃ s1, update s t0 d0 = some s1 ∧
      (s1.game_over = false → tickDue (pollEvents s1 events) t1 = true →
        ∃ s3, update (pollEvents s1 events) t1 d1 = some s3 ∧
          s3.current_direction ≠ opposite s1.current_direction) := by
  obtain ⟨u, hu⟩ := simulationStep_isSome s d0 hne
  refine ⟨{ u with last_update_time := t0 % 2 ^ 32 }, ?_, ?_⟩
  · rw [update_tick s t0 d0 htick0, hu]; rfl
  · intro hrun htick1
    have hdir := simulationStep_directions s u d0 hu
    have hune := simulationStep_snake_ne_nil s u d0 hu
    obtain ⟨k1, k2, -, -, -, -, -, k8⟩ :=
      pollEvents_running events { u with last_update_time := t0 % 2 ^ 32 } hrun
    have hne2 : (pollEvents { u with last_update_time := t0 % 2 ^ 32 } events).snake ≠ [] := by
      rw [k1]; exact hune
    obtain ⟨v, hv⟩ := simulationStep_isSome _ d1 hne2
    refine ⟨{ v with last_update_time := t1 % 2 ^ 32 }, ?_, ?_⟩
    · rw [update_tick _ t1 d1 htick1, hv]; rfl
    · have hvd := (simulationStep_directions _ v d1 hv).1
      show v.current_direction ≠ opposite u.current_direction
      rw [hvd]
      apply k8
      show u.next_direction ≠ opposite u.current_direction
      rw [hdir.1, hdir.2]
      exact opposite_ne_self _

theorem no_reversal_witness :
    ∃ s1 s3, update demoStart 101 ⟨3, 4⟩ = some s1 ∧ s1.game_over = false ∧
      tickDue (pollEvents s1 demoKeys) 202 = true ∧
      update (pollEvents s1 demoKeys) 202 ⟨1, 1⟩ = some s3 ∧
      s3.current_direction ≠ opposite s1.current_direction := by
  obtain ⟨s1, h1, h⟩ :=
    no_reversal demoStart 101 202 ⟨3, 4⟩ ⟨1, 1⟩ demoKeys (by decide) (by decide)
  have hs1 : s1 = (update demoStart 101 ⟨3, 4⟩).getD demoStart := by rw [h1]; rfl
  subst hs1
  obtain ⟨s3, h3, hdir⟩ := h (by decide) (by decide)
  exact ⟨_, s3, h1, by decide, by decide, h3, hdir⟩

/-- C3 (growth law). For every reachable running state the tick returns a state;
when it does not end in self collision and the new (wrapped) head is on the food,
the new snake is the new head followed by all old segments, one longer than
before; when the new head is not on the food, the new snake is the new head
followed by the old segments without the old tail, as long as before. -/
theorem growth_law (s : State) (d : Draw) (h : Reachable s) (_hrun : s.game_over = false) :
    ∃ front s', s.snake.head? = some front ∧ simulationStep s d = some s' ∧
      (s'.game_over = false →
        ((candidateHead s front).x = s.food.x ∧ (candidateHead s front).y = s.food.y →
          s'.snake = candidateHead s front :: s.snake ∧
            s'.snake.length = s.snake.length + 1) ∧
        (¬((candidateHead s front).x = s.food.x ∧ (candidateHead s front).y = s.food.y) →
          s'.snake = candidateHead s front :: s.snake.dropLast ∧
            s'.snake.length = s.snake.length)) := by
  obtain ⟨hlen, hgrow, -, -⟩ := inv_of_reachable s h
  cases hsn : s.snake with
  | nil => rw [hsn] at hlen; simp at hlen
  | cons front rest =>
    have hne : front :: rest ≠ [] := by simp
    cases hc : (s.game_over || selfCollision (candidateHead s front) s.snake) with
    | true =>
      refine ⟨front, _, rfl, simulationStep_collision s d front rest hsn hc, ?_⟩
      intro hover
      simp at hover
    | false =>
      refine ⟨front, _, rfl, simulationStep_advance s d front rest hsn hc, ?_⟩
      intro _
      dsimp only
      rw [hgrow, hsn]
      constructor
      · intro hpos
        rw [(samePos_iff _ _).mpr hpos]
        simp
      · intro hpos
        rw [(samePos_eq_false_iff _ _).mpr hpos]
        simp [List.dropLast_cons_of_ne_nil hne]

theorem growth_law_witness :
    Reachable demoTurned ∧ demoTurned.game_over = false ∧
      ∃ s', simulationStep demoTurned ⟨3, 4⟩ = some s' ∧ s'.game_over = false ∧
        s'.snake = [⟨100, 260, 20, 20⟩, ⟨100, 280, 20, 20⟩, ⟨100, 300, 20, 20⟩] ∧
        s'.snake.length = demoTurned.snake.length := by
  obtain ⟨front, s', hfront, hstep, hlaw⟩ :=
    growth_law demoTurned ⟨3, 4⟩ demoTurned_reachable rfl
  have hf : front = ⟨100, 280, 20, 20⟩ := (Option.some.inj hfront).symm
  have hs' : s' = (simulationStep demoTurned ⟨3, 4⟩).getD demoTurned := by rw [hstep]; rfl
  subst hf hs'
  have hmove := (hlaw (by decide)).2 (by decide)
  exact ⟨demoTurned_reachable, rfl, _, hstep, by decide, hmove.1, hmove.2⟩

/-- C4 (self collision). For every running state with at least 4 segments in which
the wrapped candidate head has the position of the segment at some index `k ≥ 1`
(the tail included), the tick returns a state that is game over, with the snake
sequence and the food exactly as they were. -/
theorem self_collision_ends_game (s : State) (d : Draw) (front seg : SDL_FRect) (k : Nat)
    (_hrun : s.game_over = false) (hlen : 4 ≤ s.snake.length)
    (hfront : s.snake.head? = some front) (hk : 1 ≤ k) (hseg : s.snake[k]? = some seg)
    (hx : (candidateHead s front).x = seg.x) (hy : (candidateHead s front).y = seg.y) :
    ∃ s', simulationStep s d = some s' ∧ s'.game_over = true ∧ s'.snake = s.snake ∧
      s'.food = s.food := by
  cases hsn : s.snake with
  | nil => rw [hsn] at hlen; simp at hlen
  | cons front' rest =>
    rw [hsn] at hfront
    simp only [List.head?_cons, Option.some.injEq] at hfront
    subst hfront
    have hc : (s.game_over || selfCollision (candidateHead s front') s.snake) = true := by
      rw [selfCollision_of_getElem? _ seg s.snake k hk hseg hx hy]
      simp
    exact ⟨_, simulationStep_collision s d front' rest hsn hc, rfl, hsn, rfl⟩

theorem self_collision_ends_game_witness :
    ∃ s', simulationStep demoCoiled ⟨3, 4⟩ = some s' ∧ s'.game_over = true ∧
      s'.snake = demoCoiled.snake ∧ s'.food = demoCoiled.food :=
  self_collision_ends_game demoCoiled ⟨3, 4⟩ ⟨100, 280, 20, 20⟩ ⟨100, 300, 20, 20⟩ 3
    (by decide) (by decide) (by decide) (by decide) (by decide) (by decide) (by decide)

/-- C5 (wraparound on all four edges). For a snake whose head is on the grid, the
tick returns a state whose head, unless the tick ends in self collision, is the
old head moved in the committed direction and wrapped; and that new head is:
moving Right, `x = 0` from `x = 780` and `x + 20` otherwise, same `y`; moving
Left, `x = 780` from `x = 0` and `x - 20` otherwise, same `y`; moving Up, `y = 580`
from `y = 0` and `y - 20` otherwise, same `x`; moving Down, `y = 0` from `y = 580`
and `y + 20` otherwise, same `x`. -/
theorem wraparound (s : State) (d : Draw) (head : SDL_FRect) (rest : List SDL_FRect)
    (hs : s.snake = head :: rest)
    (hx : head.x % 20 = 0 ∧ 0 ≤ head.x ∧ head.x < 800)
    (hy : head.y % 20 = 0 ∧ 0 ≤ head.y ∧ head.y < 600) :
    (∃ s', simulationStep s d = some s' ∧
      (s'.game_over = false →
        s'.snake.head? = some (wrapHead (moveHead s.next_direction head)))) ∧
    wrapHead (moveHead Direction.RIGHT head)
      = (if head.x = 780 then { head with x := 0 } else { head with x := head.x + 20 }) ∧
    wrapHead (moveHead Direction.LEFT head)
      = (if head.x = 0 then { head with x := 780 } else { head with x := head.x - 20 }) ∧
    wrapHead (moveHead Direction.UP head)
      = (if head.y = 0 then { head with y := 580 } else { head with y := head.y - 20 }) ∧
    wrapHead (moveHead Direction.DOWN head)
      = (if head.y = 580 then { head with y := 0 } else { head with y := head.y + 20 }) := by
  refine ⟨?_, ?_, ?_, ?_, ?_⟩
  · cases hc : (s.game_over || selfCollision (candidateHead s head) s.snake) with
    | true =>
      refine ⟨_, simulationStep_collision s d head rest hs hc, ?_⟩
      intro hover
      simp at hover
    | false =>
      refine ⟨_, simulationStep_advance s d head rest hs hc, ?_⟩
      intro _
      dsimp only
      rw [hs]
      split_ifs <;> simp [candidateHead]
  all_goals
    simp only [wrapHead, moveHead, SEGMENT_SIZE, SCREEN_WIDTH, SCREEN_HEIGHT]
    split_ifs <;> (try dsimp only at *) <;> first
      | rfl
      | omega

theorem wraparound_witness :
    (∃ s', simulationStep
        { demoStart with snake := [⟨780, 0, 20, 20⟩, ⟨760, 0, 20, 20⟩, ⟨740, 0, 20, 20⟩] }
        ⟨3, 4⟩ = some s' ∧
      (s'.game_over = false → s'.snake.head? = some ⟨0, 0, 20, 20⟩)) ∧
    wrapHead (moveHead Direction.RIGHT ⟨780, 0, 20, 20⟩) = ⟨0, 0, 20, 20⟩ ∧
    wrapHead (moveHead Direction.LEFT ⟨780, 0, 20, 20⟩) = ⟨760, 0, 20, 20⟩ ∧
    wrapHead (moveHead Direction.UP ⟨780, 0, 20, 20⟩) = ⟨780, 580, 20, 20⟩ ∧
    wrapHead (moveHead Direction.DOWN ⟨780, 0, 20, 20⟩) = ⟨780, 20, 20, 20⟩ :=
  wraparound
    { demoStart with snake := [⟨780, 0, 20, 20⟩, ⟨760, 0, 20, 20⟩, ⟨740, 0, 20, 20⟩] }
    ⟨3, 4⟩ ⟨780, 0, 20, 20⟩ [⟨760, 0, 20, 20⟩, ⟨740, 0, 20, 20⟩] rfl
    (by decide) (by decide)

/-- C6 (reset postcondition). For every state that is game over, the restart key
yields a state whose snake is exactly the segments (100,300), (80,300), (60,300),
head first, whose current and latched directions are both Right, which is
running, and whose food is the fresh spawner draw, the cell of the drawn column and
row; snake, directions, running flag and food are the same from whatever game-over
state the restart is made with the same draw. -/
theorem reset_postcondition (s : State) (d : Draw) (hover : s.game_over = true) :
    (handleEvent s restartKey d).snake
        = [⟨100, 300, 20, 20⟩, ⟨80, 300, 20, 20⟩, ⟨60, 300, 20, 20⟩] ∧
      (handleEvent s restartKey d).current_direction = Direction.RIGHT ∧
      (handleEvent s restartKey d).next_direction = Direction.RIGHT ∧
      (handleEvent s restartKey d).game_over = false ∧
      (handleEvent s restartKey d).food = spawnFood s.food d ∧
      (handleEvent s restartKey d).food = ⟨d.col * 20, d.row * 20, 20, 20⟩ ∧
      ∀ t : State, t.game_over = true →
        (handleEvent t restartKey d).snake = (handleEvent s restartKey d).snake ∧
        (handleEvent t restartKey d).current_direction
          = (handleEvent s restartKey d).current_direction ∧
        (handleEvent t restartKey d).next_direction
          = (handleEvent s restartKey d).next_direction ∧
        (handleEvent t restartKey d).game_over = (handleEvent s restartKey d).game_over ∧
        (handleEvent t restartKey d).food = (handleEvent s restartKey d).food := by
  have key : ∀ t : State, t.game_over = true →
      handleEvent t restartKey d
        = { t with
            snake := startSnake
            current_direction := Direction.RIGHT
            food := ⟨d.col * 20, d.row * 20, 20, 20⟩
            next_direction := Direction.RIGHT
            game_over := false } := by
    intro t ht
    simp only [handleEvent, restartKey, ht, resetGame_eq]
    rfl
  rw [key s hover]
  refine ⟨rfl, rfl, rfl, rfl, rfl, rfl, ?_⟩
  intro t ht
  rw [key t ht]
  exact ⟨rfl, rfl, rfl, rfl, rfl⟩

theorem reset_postcondition_witness :
    demoOver.game_over = true ∧
      (handleEvent demoOver restartKey ⟨5, 15⟩).snake
        = [⟨100, 300, 20, 20⟩, ⟨80, 300, 20, 20⟩, ⟨60, 300, 20, 20⟩] ∧
      (handleEvent demoOver restartKey ⟨5, 15⟩).current_direction = Direction.RIGHT ∧
      (handleEvent demoOver restartKey ⟨5, 15⟩).next_direction = Direction.RIGHT ∧
      (handleEvent demoOver restartKey ⟨5, 15⟩).game_over = false ∧
      (handleEvent demoOver restartKey ⟨5, 15⟩).food = ⟨100, 300, 20, 20⟩ :=
  have h := reset_postcondition demoOver ⟨5, 15⟩ rfl
  ⟨rfl, h.1, h.2.1, h.2.2.1, h.2.2.2.1, h.2.2.2.2.2.1⟩

/-- C7, as stated, fails: in the reachable running state `demoLatchedUp` the
current direction is Right and Up is latched; the key Left is rejected and leaves
the latch alone, and the next tick commits Up, not Right. -/
theorem reversal_guard_counterexample :
    Reachable demoLatchedUp ∧ demoLatchedUp.game_over = false ∧
      demoLatchedUp.current_direction = Direction.RIGHT ∧
      (handleEvent demoLatchedUp (.SDL_EVENT_KEY_DOWN .SDL_SCANCODE_LEFT) ⟨0, 0⟩).next_direction
        = demoLatchedUp.next_direction ∧
      ∃ s', simulationStep
          (handleEvent demoLatchedUp (.SDL_EVENT_KEY_DOWN .SDL_SCANCODE_LEFT) ⟨0, 0⟩) ⟨0, 0⟩
          = some s' ∧
        s'.current_direction = Direction.UP ∧ ¬ s'.current_direction = Direction.RIGHT :=
  ⟨Reachable.event demoStart _ ⟨0, 0⟩ (Reachable.start _ _ (by decide)) (by decide),
    by decide, by decide, by decide, _, rfl, by decide, by decide⟩

/-- C7 (reversal guard), amended. For every running state with a non-empty snake,
a key press requesting the direction opposite to the current one (Left while going
Right, Right while going Left, Down while going Up, Up while going Down; arrow key
or letter key) is rejected: it changes nothing, the latch included. The next tick
then commits the direction that was latched before the press; in particular, when
the latch held the current direction, the committed direction remains the current
one. -/
theorem reversal_guard (s : State) (d d' : Draw) (key : SDL_Scancode)
    (hne : s.snake ≠ []) (hrun : s.game_over = false)
    (hkey : requestedDirection key = some (opposite s.current_direction)) :
    handleEvent s (.SDL_EVENT_KEY_DOWN key) d = s ∧
      ∃ s', simulationStep (handleEvent s (.SDL_EVENT_KEY_DOWN key) d) d' = some s' ∧
        s'.current_direction = s.next_direction ∧
        (s.next_direction = s.current_direction →
          s'.current_direction = s.current_direction) := by
  have hsame : handleEvent s (.SDL_EVENT_KEY_DOWN key) d = s := by
    have hcond : (s.game_over && key == SDL_Scancode.SDL_SCANCODE_R) = false := by
      simp [hrun]
    have hlatch : latchDirection s.current_direction s.next_direction key
        = s.next_direction := by
      cases key <;> cases hcur : s.current_direction <;>
        simp_all [latchDirection, requestedDirection, opposite]
    simp only [handleEvent, hcond, hlatch]
    rfl
  refine ⟨hsame, ?_⟩
  rw [hsame]
  obtain ⟨s', hs'⟩ := simulationStep_isSome s d' hne
  have hdir := (simulationStep_directions s s' d' hs').1
  exact ⟨s', hs', hdir, fun h => hdir.trans h⟩

theorem reversal_guard_witness :
    demoStart.snake ≠ [] ∧ demoStart.game_over = false ∧
      requestedDirection SDL_Scancode.SDL_SCANCODE_A
        = some (opposite demoStart.current_direction) ∧
      handleEvent demoStart (.SDL_EVENT_KEY_DOWN .SDL_SCANCODE_A) ⟨0, 0⟩ = demoStart ∧
      ∃ s', simulationStep (handleEvent demoStart (.SDL_EVENT_KEY_DOWN .SDL_SCANCODE_A) ⟨0, 0⟩)
          ⟨3, 4⟩ = some s' ∧
        s'.current_direction = Direction.RIGHT := by
  obtain ⟨hsame, s', hstep, hdir, hkeep⟩ :=
    reversal_guard demoStart ⟨0, 0⟩ ⟨3, 4⟩ SDL_Scancode.SDL_SCANCODE_A
      (by decide) (by decide) (by decide)
  exact ⟨by decide, by decide, by decide, hsame, s', hstep, hkeep rfl⟩

/-- C8 (food lifecycle). (1) For every running state with a head, the tick returns
a state whose food is the new spawner draw if the tick has no self collision and its
new head is on the food, and the old food in every other case. (2) Every event
other than an accepted restart leaves the food unchanged. (3) With the start snake
travelling Right and the food one cell ahead of its head, at (120,300), one tick
gives length 4 and a new food that is the spawner draw, on a cell of the grid. -/
theorem food_lifecycle :
    (∀ (s : State) (d : Draw) (front : SDL_FRect),
      s.game_over = false → s.snake.head? = some front →
      ∃ s', simulationStep s d = some s' ∧
        (selfCollision (candidateHead s front) s.snake = false ∧
            (candidateHead s front).x = s.food.x ∧ (candidateHead s front).y = s.food.y →
          s'.food = spawnFood s.food d) ∧
        (¬(selfCollision (candidateHead s front) s.snake = false ∧
            (candidateHead s front).x = s.food.x ∧ (candidateHead s front).y = s.food.y) →
          s'.food = s.food)) ∧
    (∀ (s : State) (e : SDL_Event) (d : Draw),
      restartAccepted s e = false → (handleEvent s e d).food = s.food) ∧
    (∀ (s : State) (d : Draw),
      s.snake = [⟨100, 300, 20, 20⟩, ⟨80, 300, 20, 20⟩, ⟨60, 300, 20, 20⟩] →
      s.next_direction = Direction.RIGHT → s.game_over = false →
      s.food.x = 120 → s.food.y = 300 → validDraw d →
      ∃ s', simulationStep s d = some s' ∧ s'.snake.length = 4 ∧
        s'.food = spawnFood s.food d ∧
        (s'.food.x % 20 = 0 ∧ 0 ≤ s'.food.x ∧ s'.food.x < 800 ∧
          s'.food.y % 20 = 0 ∧ 0 ≤ s'.food.y ∧ s'.food.y < 600)) := by
  refine ⟨?_, ?_, ?_⟩
  · intro s d front hrun hfront
    cases hsn : s.snake with
    | nil => rw [hsn] at hfront; simp at hfront
    | cons front' rest =>
      rw [hsn] at hfront
      simp only [List.head?_cons, Option.some.injEq] at hfront
      subst hfront
      rw [← hsn]
      cases hcol : selfCollision (candidateHead s front') s.snake with
      | true =>
        have hc : (s.game_over || selfCollision (candidateHead s front') s.snake) = true := by
          rw [hcol]; simp
        refine ⟨_, simulationStep_collision s d front' rest hsn hc, ?_, ?_⟩
        · intro h; simp at h
        · intro _; rfl
      | false =>
        have hc : (s.game_over || selfCollision (candidateHead s front') s.snake) = false := by
          rw [hcol, hrun]; rfl
        refine ⟨_, simulationStep_advance s d front' rest hsn hc, ?_, ?_⟩
        · intro h
          dsimp only
          rw [(samePos_iff _ _).mpr h.2, if_pos rfl]
        · intro h
          have hpos : samePos (candidateHead s front') s.food = false :=
            (samePos_eq_false_iff _ _).mpr (fun hp => h ⟨rfl, hp⟩)
          dsimp only
          rw [hpos]
          rfl
  · intro s e d hr
    exact (handleEvent_no_restart s e d hr).2.2.1
  · intro s d hsn hnext hrun hfx hfy hd
    have hcand : candidateHead s ⟨100, 300, 20, 20⟩ = ⟨120, 300, 20, 20⟩ := by
      unfold candidateHead; rw [hnext]; decide
    have hc : (s.game_over || selfCollision (candidateHead s ⟨100, 300, 20, 20⟩) s.snake)
        = false := by
      rw [hrun, hcand, hsn]; decide
    have hpos : samePos (candidateHead s ⟨100, 300, 20, 20⟩) s.food = true := by
      rw [hcand, samePos_iff]; exact ⟨hfx.symm, hfy.symm⟩
    refine ⟨_, simulationStep_advance s d _ _ hsn hc, ?_, ?_, ?_⟩
    · dsimp only
      rw [hpos, hsn]
      rfl
    · dsimp only
      rw [hpos, if_pos rfl]
    · dsimp only
      rw [hpos, if_pos rfl]
      exact onGrid_spawnFood s.food d hd

theorem food_lifecycle_witness :
    (∃ s', simulationStep demoStart ⟨3, 4⟩ = some s' ∧ s'.food = ⟨60, 80, 20, 20⟩) ∧
      (∃ s', simulationStep demoTurned ⟨3, 4⟩ = some s' ∧ s'.food = demoTurned.food) ∧
      (handleEvent demoTurned restartKey ⟨3, 4⟩).food = demoTurned.food ∧
      (∃ s', simulationStep demoStart ⟨3, 4⟩ = some s' ∧ s'.snake.length = 4) := by
  obtain ⟨htick, hevent, hscenario⟩ := food_lifecycle
  obtain ⟨s1, h1, heat, -⟩ := htick demoStart ⟨3, 4⟩ ⟨100, 300, 20, 20⟩ rfl rfl
  obtain ⟨s2, h2, -, hkeep⟩ := htick demoTurned ⟨3, 4⟩ ⟨100, 280, 20, 20⟩ rfl rfl
  obtain ⟨s3, h3, hlen, -⟩ :=
    hscenario demoStart ⟨3, 4⟩ rfl rfl rfl (by decide) (by decide) (by decide)
  exact ⟨⟨s1, h1, heat (by decide)⟩, ⟨s2, h2, hkeep (by decide)⟩,
    hevent demoTurned restartKey ⟨3, 4⟩ rfl, ⟨s3, h3, hlen⟩⟩

/-- C9 (score display). In every reachable running state, with `n` food items
consumed since the last reset, the tick returns a state; if the tick consumes the
food, the title is set to the score text for the snake length at the end of the
tick minus 3, and that score is `n + 1`, the number of food items consumed since
the reset; if the tick consumes no food, the title is unchanged. -/
theorem score_display (s : State) (n : Nat) (d : Draw) (h : ReachableEaten s n)
    (_hrun : s.game_over = false) :
    ∃ s', simulationStep s d = some s' ∧
      (consumesFood s = true →
        s'.title = scoreTitle (s'.snake.length - 3) ∧ 3 ≤ s'.snake.length ∧
          s'.snake.length - 3 = n + 1) ∧
      (consumesFood s = false → s'.title = s.title) := by
  have hinv := inv_of_reachable s (reachable_of_reachableEaten s n h)
  have hlen := length_of_reachableEaten s n h
  have hne : s.snake ≠ [] := by
    intro hnil
    rw [hnil] at hlen
    simp at hlen
  obtain ⟨s', hs'⟩ := simulationStep_isSome s d hne
  have heff := simulationStep_effect s s' d hinv.2.1 hs'
  refine ⟨s', hs', ?_, fun hcf => (heff.2 hcf).2.2⟩
  intro hcf
  obtain ⟨-, hl, ht⟩ := heff.1 hcf
  have h3 : 3 ≤ s'.snake.length := by omega
  refine ⟨?_, h3, by omega⟩
  rw [ht, sizeMinus3, if_pos h3]

theorem score_display_witness :
    ReachableEaten demoStart 0 ∧ demoStart.game_over = false ∧
      ∃ s', simulationStep demoStart ⟨3, 4⟩ = some s' ∧
        s'.title = "SnakeGame - Score: 1" ∧ s'.snake.length - 3 = 0 + 1 := by
  obtain ⟨s', hstep, heat, -⟩ :=
    score_display demoStart 0 ⟨3, 4⟩ (ReachableEaten.start _ _ (by decide)) rfl
  have hs' : s' = (simulationStep demoStart ⟨3, 4⟩).getD demoStart := by rw [hstep]; rfl
  obtain ⟨htitle, -, hscore⟩ := heat (by decide)
  refine ⟨ReachableEaten.start _ _ (by decide), rfl, s', hstep, ?_, hscore⟩
  rw [htitle, hscore]
  decide

/-- C10 (restart is accepted only when the game is over). For every running state a
press of the restart key leaves the whole state unchanged; for every game-over
state it performs the reset (snake, current direction and food as `resetGame`
returns them, the latch set to the new current direction) and the game is running. -/
theorem restart_only_when_over (s : State) (d : Draw) :
    (s.game_over = false → handleEvent s restartKey d = s) ∧
    (s.game_over = true →
      handleEvent s restartKey d
        = { s with
            snake := (resetGame s.snake s.current_direction s.food d).1
            current_direction := (resetGame s.snake s.current_direction s.food d).2.1
            food := (resetGame s.snake s.current_direction s.food d).2.2
            next_direction := (resetGame s.snake s.current_direction s.food d).2.1
            game_over := false } ∧
      (handleEvent s restartKey d).game_over = false) := by
  constructor
  · intro hrun
    have hcond :
        (s.game_over && SDL_Scancode.SDL_SCANCODE_R == SDL_Scancode.SDL_SCANCODE_R) = false := by
      rw [hrun]; rfl
    unfold handleEvent restartKey
    dsimp only
    rw [hcond]
    rfl
  · intro hover
    have hcond :
        (s.game_over && SDL_Scancode.SDL_SCANCODE_R == SDL_Scancode.SDL_SCANCODE_R) = true := by
      rw [hover]; rfl
    unfold handleEvent restartKey
    dsimp only
    rw [hcond]
    exact ⟨rfl, rfl⟩

theorem restart_only_when_over_witness :
    handleEvent demoTurned restartKey ⟨3, 4⟩ = demoTurned ∧
      (handleEvent demoOver restartKey ⟨3, 4⟩).game_over = false ∧
      (handleEvent demoOver restartKey ⟨3, 4⟩).snake = startSnake :=
  have hrun := (restart_only_when_over demoTurned ⟨3, 4⟩).1 rfl
  have hover := (restart_only_when_over demoOver ⟨3, 4⟩).2 rfl
  ⟨hrun, hover.2, by rw [hover.1]; rfl⟩

/-- C11 (food spawner contract). The two distributions range over the columns
0..39 and the rows 0..29, that is `800 / 20 - 1` and `600 / 20 - 1`; for every
draw the spawner returns the rectangle `x = 20 * col`, `y = 20 * row`,
`w = h = 20`; for a draw in range that is a cell of the grid; and every cell of
the grid is the result of some draw in range. -/
theorem spawner_contract :
    (∀ d : Draw, validDraw d ↔ (0 ≤ d.col ∧ d.col ≤ 39 ∧ 0 ≤ d.row ∧ d.row ≤ 29)) ∧
    (disXMax = 800 / 20 - 1 ∧ disYMax = 600 / 20 - 1) ∧
    (∀ (food : SDL_FRect) (d : Draw), spawnFood food d = ⟨20 * d.col, 20 * d.row, 20, 20⟩) ∧
    (∀ (food : SDL_FRect) (d : Draw), validDraw d →
      (spawnFood food d).x % 20 = 0 ∧ 0 ≤ (spawnFood food d).x ∧ (spawnFood food d).x < 800 ∧
      (spawnFood food d).y % 20 = 0 ∧ 0 ≤ (spawnFood food d).y ∧ (spawnFood food d).y < 600) ∧
    (∀ (food cell : SDL_FRect),
      (cell.x % 20 = 0 ∧ 0 ≤ cell.x ∧ cell.x < 800 ∧
        cell.y % 20 = 0 ∧ 0 ≤ cell.y ∧ cell.y < 600) → cell.w = 20 → cell.h = 20 →
      ∃ d : Draw, validDraw d ∧ spawnFood food d = cell) := by
  refine ⟨?_, ⟨rfl, rfl⟩, ?_, ?_, ?_⟩
  · intro d
    unfold validDraw
    rw [disXMax_eq, disYMax_eq]
  · intro food d
    simp only [spawnFood, SEGMENT_SIZE, SDL_FRect.mk.injEq, and_true]
    constructor <;> ring
  · intro food d hd
    exact onGrid_spawnFood food d hd
  · intro food cell hcell hw hh
    refine ⟨⟨cell.x / 20, cell.y / 20⟩, ?_, ?_⟩
    · unfold validDraw
      rw [disXMax_eq, disYMax_eq]
      dsimp only
      omega
    · obtain ⟨x, y, w, h⟩ := cell
      dsimp only at hcell hw hh
      simp only [spawnFood, SEGMENT_SIZE, SDL_FRect.mk.injEq]
      refine ⟨?_, ?_, hw.symm, hh.symm⟩ <;> omega

theorem spawner_contract_witness :
    validDraw ⟨39, 29⟩ ∧ spawnFood ⟨0, 0, 0, 0⟩ ⟨39, 29⟩ = ⟨780, 580, 20, 20⟩ ∧
      (spawnFood ⟨0, 0, 0, 0⟩ ⟨39, 29⟩).x < 800 ∧
      ∃ d : Draw, validDraw d ∧ spawnFood ⟨0, 0, 0, 0⟩ d = ⟨0, 580, 20, 20⟩ := by
  obtain ⟨hrange, -, hrect, hgrid, hall⟩ := spawner_contract
  exact ⟨(hrange ⟨39, 29⟩).mpr (by decide), hrect ⟨0, 0, 0, 0⟩ ⟨39, 29⟩,
    (hgrid ⟨0, 0, 0, 0⟩ ⟨39, 29⟩ (by decide)).2.2.1,
    hall ⟨0, 0, 0, 0⟩ ⟨0, 580, 20, 20⟩ (by decide) rfl rfl⟩

/-- C12 (start scenario). From a running state with the snake of `resetGame`
(head (100,300), then (80,300), (60,300)), Right latched and no growth pending,
as `resetGame` leaves it, with the food on none of the cells (120,300), (140,300),
(160,300), three ticks return states that are all running, the last with the
snake (160,300), (140,300), (120,300): head at column 8, row 15, length 3. -/
theorem start_scenario (s : State) (d1 d2 d3 : Draw)
    (hsnake : s.snake = [⟨100, 300, 20, 20⟩, ⟨80, 300, 20, 20⟩, ⟨60, 300, 20, 20⟩])
    (hnext : s.next_direction = Direction.RIGHT) (hrun : s.game_over = false)
    (hgrow : s.snake_grows = false)
    (h1 : ¬(s.food.x = 120 ∧ s.food.y = 300)) (h2 : ¬(s.food.x = 140 ∧ s.food.y = 300))
    (h3 : ¬(s.food.x = 160 ∧ s.food.y = 300)) :
    ∃ s1 s2 s3, simulationStep s d1 = some s1 ∧ simulationStep s1 d2 = some s2 ∧
      simulationStep s2 d3 = some s3 ∧
      s1.game_over = false ∧ s2.game_over = false ∧ s3.game_over = false ∧
      s3.snake = [⟨160, 300, 20, 20⟩, ⟨140, 300, 20, 20⟩, ⟨120, 300, 20, 20⟩] ∧
      s3.snake.length = 3 ∧ s3.snake.head? = some ⟨8 * 20, 15 * 20, 20, 20⟩ := by
  obtain ⟨s1, e1, k1, n1, r1, g1, f1⟩ :=
    simulationStep_row s d1 100 (by rw [hsnake]; norm_num) (by norm_num) (by norm_num)
      hnext hrun hgrow (by norm_num; exact fun hx hy => h1 ⟨hx, hy⟩)
  obtain ⟨s2, e2, k2, n2, r2, g2, f2⟩ :=
    simulationStep_row s1 d2 120 (by rw [k1]; norm_num) (by norm_num) (by norm_num)
      n1 r1 g1 (by rw [f1]; norm_num; exact fun hx hy => h2 ⟨hx, hy⟩)
  obtain ⟨s3, e3, k3, -, r3, -, -⟩ :=
    simulationStep_row s2 d3 140 (by rw [k2]; norm_num) (by norm_num) (by norm_num)
      n2 r2 g2 (by rw [f2, f1]; norm_num; exact fun hx hy => h3 ⟨hx, hy⟩)
  refine ⟨s1, s2, s3, e1, e2, e3, r1, r2, r3, ?_, ?_, ?_⟩ <;> rw [k3] <;> norm_num

theorem start_scenario_witness :
    ∃ s1 s2 s3, simulationStep (initialState ⟨0, 0, 0, 0⟩ ⟨0, 0⟩) ⟨1, 1⟩ = some s1 ∧
      simulationStep s1 ⟨2, 2⟩ = some s2 ∧ simulationStep s2 ⟨3, 3⟩ = some s3 ∧
      s1.game_over = false ∧ s2.game_over = false ∧ s3.game_over = false ∧
      s3.snake = [⟨160, 300, 20, 20⟩, ⟨140, 300, 20, 20⟩, ⟨120, 300, 20, 20⟩] ∧
      s3.snake.length = 3 ∧ s3.snake.head? = some ⟨8 * 20, 15 * 20, 20, 20⟩ :=
  start_scenario (initialState ⟨0, 0, 0, 0⟩ ⟨0, 0⟩) ⟨1, 1⟩ ⟨2, 2⟩ ⟨3, 3⟩ rfl rfl rfl rfl
    (by decide) (by decide) (by decide)

/-- C13, as stated, fails in its second half: `demoDead` is reachable (the head of
a four-segment snake ran into its tail on a tick that turned Up), and there the
head (100,320) is not the index-1 segment (120,320) moved one cell in the current
direction Up, which would be (120,300). -/
theorem reversal_prevents_collision_counterexample :
    Reachable demoDead ∧ demoDead.snake[0]? = some ⟨100, 320, 20, 20⟩ ∧
      demoDead.snake[1]? = some ⟨120, 320, 20, 20⟩ ∧
      demoDead.current_direction = Direction.UP ∧
      wrapHead (moveHead demoDead.current_direction ⟨120, 320, 20, 20⟩)
        = ⟨120, 300, 20, 20⟩ ∧
      ¬ headFollows demoDead := by
  refine ⟨demoDead_reachable, by decide, by decide, by decide, by decide, ?_⟩
  rintro ⟨front, seg1, rest, hsn, hfront⟩
  have h0 : front = ⟨100, 320, 20, 20⟩ := by
    have := congrArg (fun l => l[0]?) hsn
    simpa [demoDead, demoBlock] using this.symm
  have h1 : seg1 = ⟨120, 320, 20, 20⟩ := by
    have := congrArg (fun l => l[1]?) hsn
    simpa [demoDead, demoBlock] using this.symm
  subst h0 h1
  revert hfront
  decide

/-- C13 (the reversal guard prevents instant self collision), amended. In every
running state reachable from loop entry the snake has a head and a segment behind
it, the head is that segment moved one cell, with wraparound, in the current
direction, and whatever events are handled before the tick, the candidate head the
tick computes is not on the cell of that segment. -/
theorem reversal_prevents_collision (s : State) (events : List (SDL_Event × Draw))
    (h : Reachable s) (hrun : s.game_over = false) :
    ∃ front seg1 rest, s.snake = front :: seg1 :: rest ∧
      front = wrapHead (moveHead s.current_direction seg1) ∧
      (pollEvents s events).snake = s.snake ∧
      ¬((candidateHead (pollEvents s events) front).x = seg1.x ∧
        (candidateHead (pollEvents s events) front).y = seg1.y) := by
  obtain ⟨-, -, hgrid, -⟩ := inv_of_reachable s h
  obtain ⟨-, -, hdir, hfollow, -⟩ := shape_of_reachable s h
  obtain ⟨front, seg1, rest, hsn, hfront⟩ := hfollow hrun
  obtain ⟨k1, -, -, -, -, -, -, k8⟩ := pollEvents_running events s hrun
  refine ⟨front, seg1, rest, hsn, hfront, k1, ?_⟩
  have hg1 : onGrid seg1 := hgrid seg1 (by rw [hsn]; simp)
  unfold candidateHead
  rw [hfront]
  exact wrap_move_ne_back _ _ seg1 hg1 (k8 hdir)

theorem reversal_prevents_collision_witness :
    Reachable demoBlock ∧ demoBlock.game_over = false ∧
      ⟨100, 320, 20, 20⟩ = wrapHead (moveHead demoBlock.current_direction ⟨120, 320, 20, 20⟩) ∧
      ¬((candidateHead (pollEvents demoBlock demoKeys) ⟨100, 320, 20, 20⟩).x = 120 ∧
        (candidateHead (pollEvents demoBlock demoKeys) ⟨100, 320, 20, 20⟩).y = 320) := by
  obtain ⟨front, seg1, rest, hsn, hfront, -, hne⟩ :=
    reversal_prevents_collision demoBlock demoKeys demoBlock_reachable rfl
  have h0 : front = ⟨100, 320, 20, 20⟩ := by
    have := congrArg (fun l => l[0]?) hsn
    simpa [demoBlock] using this.symm
  have h1 : seg1 = ⟨120, 320, 20, 20⟩ := by
    have := congrArg (fun l => l[1]?) hsn
    simpa [demoBlock] using this.symm
  subst h0 h1
  exact ⟨demoBlock_reachable, rfl, hfront, hne⟩

/-- C14 (game over is frozen). (1) From a game-over state, a frame with any clock
value and any events none of which is the restart key returns a state with the
same snake, food and current direction, still game over. (2) An event that takes a
game-over state to a running one is the restart key, and the update leaves a
game-over state as it is. (3) No event takes a running state to game over, and an
update that does so is a due tick whose candidate head is on the cell of a segment
at some index `k ≥ 1`. -/
theorem game_over_frozen :
    (∀ (s : State) (events : List (SDL_Event × Draw)) (current_time : Nat) (d : Draw),
      s.game_over = true → (∀ ed ∈ events, ed.1 ≠ restartKey) →
      ∃ s', frame s events current_time d = some s' ∧ s'.snake = s.snake ∧
        s'.food = s.food ∧ s'.current_direction = s.current_direction ∧
        s'.game_over = true) ∧
    (∀ (s : State) (e : SDL_Event) (d : Draw),
      s.game_over = true → (handleEvent s e d).game_over = false → e = restartKey) ∧
    (∀ (s s' : State) (current_time : Nat) (d : Draw),
      s.game_over = true → update s current_time d = some s' → s' = s) ∧
    (∀ (s : State) (e : SDL_Event) (d : Draw),
      s.game_over = false → (handleEvent s e d).game_over = false) ∧
    (∀ (s s' : State) (current_time : Nat) (d : Draw),
      s.game_over = false → update s current_time d = some s' → s'.game_over = true →
      tickDue s current_time = true ∧
        ∃ front k seg, s.snake.head? = some front ∧ 1 ≤ k ∧ s.snake[k]? = some seg ∧
          (candidateHead s front).x = seg.x ∧ (candidateHead s front).y = seg.y) := by
  refine ⟨?_, ?_, ?_, ?_, ?_⟩
  · intro s events current_time d hover hne
    obtain ⟨k1, k2, k3, k4⟩ := pollEvents_no_restart events s hne
    have hg : (pollEvents s events).game_over = true := k4.trans hover
    refine ⟨pollEvents s events, ?_, k1, k2, k3, hg⟩
    simp [frame, update, hg]
  · intro s e d hover hrun
    by_contra hne
    have h4 := (handleEvent_no_restart s e d (restartAccepted_of_ne s e hne)).2.2.2.1
    rw [h4, hover] at hrun
    cases hrun
  · intro s s' current_time d hover hstep
    simp only [update, hover, Bool.not_true, Bool.false_eq_true, if_false,
      Option.some.injEq] at hstep
    exact hstep.symm
  · intro s e d hrun
    rw [(handleEvent_no_restart s e d (restartAccepted_of_running s e hrun)).2.2.2.1]
    exact hrun
  · intro s s' current_time d hrun hstep hover
    rcases update_cases s s' current_time d hstep with ⟨_, h⟩ | ⟨htick, _, u, hu, h⟩
    · rw [h, hrun] at hover
      cases hover
    · refine ⟨htick, ?_⟩
      have huo : u.game_over = true := by rw [h] at hover; exact hover
      obtain ⟨front, hfront, hcol⟩ := simulationStep_game_over s u d hrun hu huo
      obtain ⟨k, seg, hk, hseg, hx, hy⟩ := selfCollision_eq_true _ _ hcol
      exact ⟨front, k, seg, hfront, hk, hseg, hx, hy⟩

theorem game_over_frozen_witness :
    (∃ s', frame demoDead demoKeys 505 ⟨3, 4⟩ = some s' ∧ s'.snake = demoDead.snake ∧
      s'.food = demoDead.food ∧ s'.current_direction = demoDead.current_direction ∧
      s'.game_over = true) ∧
    (handleEvent demoBlock restartKey ⟨3, 4⟩).game_over = false ∧
    (tickDue (pollEvents demoBlock [keyDown .SDL_SCANCODE_UP]) 404 = true ∧
      ∃ front k seg, (pollEvents demoBlock [keyDown .SDL_SCANCODE_UP]).snake.head? = some front ∧
        1 ≤ k ∧ (pollEvents demoBlock [keyDown .SDL_SCANCODE_UP]).snake[k]? = some seg ∧
        (candidateHead (pollEvents demoBlock [keyDown .SDL_SCANCODE_UP]) front).x = seg.x ∧
        (candidateHead (pollEvents demoBlock [keyDown .SDL_SCANCODE_UP]) front).y = seg.y) := by
  obtain ⟨hfrozen, -, -, hkeep, hdie⟩ := game_over_frozen
  exact ⟨hfrozen demoDead demoKeys 505 ⟨3, 4⟩ rfl (by decide),
    hkeep demoBlock restartKey ⟨3, 4⟩ rfl,
    hdie (pollEvents demoBlock [keyDown .SDL_SCANCODE_UP]) demoDead 404 ⟨0, 0⟩
      (by decide) (by decide) (by decide)⟩

/-- C15 (the spawner is not checked against the snake). At reset: with the draw
column 5, row 15 the state at loop entry has its food on the head cell (100,300).
At respawn: from `demoStart` the tick that eats the food, with the same draw, puts
the new food on the cell of a segment of the new snake. The food under the head at
reset stays where it is during the three ticks that lead the head around it, and is
consumed on the fourth tick, whose new head lands on (100,300). The restart puts the
food on the cell of the draw whatever the snake is. -/
theorem spawner_ignores_snake :
    (validDraw ⟨5, 15⟩ ∧ Reachable demoUnder ∧
      demoUnder.snake.head? = some ⟨100, 300, 20, 20⟩ ∧
      demoUnder.food = ⟨100, 300, 20, 20⟩) ∧
    (Reachable demoStart ∧ consumesFood demoStart = true ∧
      ∃ s', simulationStep demoStart ⟨5, 15⟩ = some s' ∧
        s'.food = ⟨100, 300, 20, 20⟩ ∧ s'.snake[1]? = some ⟨100, 300, 20, 20⟩) ∧
    ((runFrames demoUnder (demoAroundFrames.take 1)).map (fun t => (t.food, t.snake.length))
        = some (⟨100, 300, 20, 20⟩, 3) ∧
      (runFrames demoUnder (demoAroundFrames.take 2)).map (fun t => (t.food, t.snake.length))
        = some (⟨100, 300, 20, 20⟩, 3) ∧
      runFrames demoUnder demoAroundFrames = some demoAround ∧
      demoAround.food = ⟨100, 300, 20, 20⟩ ∧ demoAround.snake.length = 3 ∧
      consumesFood (pollEvents demoAround [keyDown .SDL_SCANCODE_RIGHT]) = true ∧
      ∃ s', frame demoAround [keyDown .SDL_SCANCODE_RIGHT] 404 ⟨7, 7⟩ = some s' ∧
        s'.snake.head? = some ⟨100, 300, 20, 20⟩ ∧ s'.snake.length = 4 ∧
        s'.food = ⟨140, 140, 20, 20⟩) ∧
    (∀ (s : State) (d : Draw), s.game_over = true →
      (handleEvent s restartKey d).food = ⟨d.col * 20, d.row * 20, 20, 20⟩) := by
  refine ⟨⟨by decide, Reachable.start _ _ (by decide), by decide, by decide⟩,
    ⟨demoStart_reachable, by decide, _, rfl, by decide, by decide⟩,
    ⟨by decide, by decide, by decide, by decide, by decide, by decide,
      _, rfl, by decide, by decide, by decide⟩, ?_⟩
  intro s d hover
  simp [handleEvent, restartKey, hover, resetGame_eq]

theorem spawner_ignores_snake_witness :
    demoUnder.food = ⟨100, 300, 20, 20⟩ ∧
      (handleEvent demoDead restartKey ⟨5, 15⟩).food = ⟨100, 300, 20, 20⟩ ∧
      (handleEvent demoDead restartKey ⟨5, 15⟩).snake.head? = some ⟨100, 300, 20, 20⟩ :=
  ⟨spawner_ignores_snake.1.2.2.2, spawner_ignores_snake.2.2.2 demoDead ⟨5, 15⟩ rfl,
    by decide⟩

/-- C16 (length lower bound). In every state reachable from loop entry the snake
has at least 3 segments, so it has a head; the tick returns a state, and when it
consumes the food the length at the point where the score is computed, one more
than before the tick, is at least 4, the `size_t` subtraction of 3 does not wrap,
and the list the tail is removed from is not empty. -/
theorem length_lower_bound (s : State) (d : Draw) (h : Reachable s) :
    3 ≤ s.snake.length ∧
      ∃ front s', s.snake.head? = some front ∧ simulationStep s d = some s' ∧
        candidateHead s front :: s.snake ≠ [] ∧
        (consumesFood s = true →
          4 ≤ (candidateHead s front :: s.snake).length ∧
            sizeMinus3 (candidateHead s front :: s.snake).length + 3
              = (candidateHead s front :: s.snake).length ∧
            s'.title = scoreTitle ((candidateHead s front :: s.snake).length - 3)) := by
  obtain ⟨hlen, hgrow, -, -⟩ := inv_of_reachable s h
  refine ⟨hlen, ?_⟩
  cases hsn : s.snake with
  | nil => rw [hsn] at hlen; simp at hlen
  | cons front rest =>
    have hne : s.snake ≠ [] := by rw [hsn]; simp
    obtain ⟨s', hs'⟩ := simulationStep_isSome s d hne
    refine ⟨front, s', rfl, hs', by simp, ?_⟩
    intro hcf
    obtain ⟨-, hl, ht⟩ := (simulationStep_effect s s' d hgrow hs').1 hcf
    rw [← hsn]
    have h4 : 4 ≤ (candidateHead s front :: s.snake).length := by
      simp only [List.length_cons]; omega
    have h3 : 3 ≤ (candidateHead s front :: s.snake).length := by omega
    refine ⟨h4, ?_, ?_⟩
    · rw [sizeMinus3, if_pos h3]; omega
    · rw [ht, hl, sizeMinus3]
      simp only [List.length_cons] at h3 ⊢
      rw [if_pos h3]

theorem length_lower_bound_witness :
    Reachable demoStart ∧ 3 ≤ demoStart.snake.length ∧
      ∃ s', simulationStep demoStart ⟨3, 4⟩ = some s' ∧
        4 ≤ (candidateHead demoStart ⟨100, 300, 20, 20⟩ :: demoStart.snake).length ∧
        s'.title = "SnakeGame - Score: 1" := by
  obtain ⟨hlen, front, s', hfront, hstep, -, heat⟩ :=
    length_lower_bound demoStart ⟨3, 4⟩ demoStart_reachable
  have hf : front = ⟨100, 300, 20, 20⟩ := (Option.some.inj hfront).symm
  subst hf
  obtain ⟨h4, -, htitle⟩ := heat (by decide)
  refine ⟨demoStart_reachable, hlen, s', hstep, h4, ?_⟩
  rw [htitle]
  decide

/-- C17 (no overlapping segments). In every state reachable from loop entry any
two segments at different indices are on different cells; and a tick from such a
running state, growing or not, wrapping or not, returns a state with the same
property. -/
theorem no_overlap (s : State) (d : Draw) (h : Reachable s) :
    (∀ (i j : Nat) (a b : SDL_FRect), i < j → s.snake[i]? = some a → s.snake[j]? = some b →
      ¬(a.x = b.x ∧ a.y = b.y)) ∧
    (s.game_over = false →
      ∃ s', simulationStep s d = some s' ∧
        ∀ (i j : Nat) (a b : SDL_FRect), i < j → s'.snake[i]? = some a →
          s'.snake[j]? = some b → ¬(a.x = b.x ∧ a.y = b.y)) := by
  have hinv := inv_of_reachable s h
  have hshape := shape_of_reachable s h
  refine ⟨fun i j a b hij ha hb => distinctCells_getElem? s.snake hshape.1 i j a b hij ha hb,
    ?_⟩
  intro hrun
  have hne : s.snake ≠ [] := by
    intro hnil
    have := hinv.1
    rw [hnil] at this
    simp at this
  obtain ⟨s', hs'⟩ := simulationStep_isSome s d hne
  have hshape' := shape_simulationStep s s' d hinv hshape hrun hs'
  exact ⟨s', hs', fun i j a b hij ha hb =>
    distinctCells_getElem? s'.snake hshape'.1 i j a b hij ha hb⟩

theorem no_overlap_witness :
    Reachable demoBlock ∧
      ¬((⟨100, 320, 20, 20⟩ : SDL_FRect).x = (⟨100, 300, 20, 20⟩ : SDL_FRect).x ∧
        (⟨100, 320, 20, 20⟩ : SDL_FRect).y = (⟨100, 300, 20, 20⟩ : SDL_FRect).y) ∧
      ∃ s', simulationStep demoBlock ⟨3, 4⟩ = some s' ∧
        ∀ (i j : Nat) (a b : SDL_FRect), i < j → s'.snake[i]? = some a →
          s'.snake[j]? = some b → ¬(a.x = b.x ∧ a.y = b.y) :=
  have hw := no_overlap demoBlock ⟨3, 4⟩ demoBlock_reachable
  ⟨demoBlock_reachable, hw.1 0 3 _ _ (by decide) rfl rfl, hw.2 rfl⟩

/-- C18 (connected body). In every state reachable from loop entry any two
consecutive segments are neighbours on the 40x30 torus: they have the same `y` and
their `x` differ by 20 modulo 800, or the same `x` and their `y` differ by 20
modulo 600. -/
theorem connected_body (s : State) (h : Reachable s) (i : Nat) (a b : SDL_FRect)
    (ha : s.snake[i]? = some a) (hb : s.snake[i + 1]? = some b) :
    (a.y = b.y ∧ ((a.x - b.x) % 800 = 20 ∨ (b.x - a.x) % 800 = 20)) ∨
      (a.x = b.x ∧ ((a.y - b.y) % 600 = 20 ∨ (b.y - a.y) % 600 = 20)) :=
  connected_getElem? s.snake (shape_of_reachable s h).2.1 i a b ha hb

theorem connected_body_witness :
    Reachable demoBlock ∧ demoBlock.snake[1]? = some ⟨120, 320, 20, 20⟩ ∧
      demoBlock.snake[1 + 1]? = some ⟨120, 300, 20, 20⟩ ∧
      (((⟨120, 320, 20, 20⟩ : SDL_FRect).y = (⟨120, 300, 20, 20⟩ : SDL_FRect).y ∧
          (((⟨120, 320, 20, 20⟩ : SDL_FRect).x - (⟨120, 300, 20, 20⟩ : SDL_FRect).x) % 800 = 20 ∨
            ((⟨120, 300, 20, 20⟩ : SDL_FRect).x - (⟨120, 320, 20, 20⟩ : SDL_FRect).x) % 800
              = 20)) ∨
        ((⟨120, 320, 20, 20⟩ : SDL_FRect).x = (⟨120, 300, 20, 20⟩ : SDL_FRect).x ∧
          (((⟨120, 320, 20, 20⟩ : SDL_FRect).y - (⟨120, 300, 20, 20⟩ : SDL_FRect).y) % 600 = 20 ∨
            ((⟨120, 300, 20, 20⟩ : SDL_FRect).y - (⟨120, 320, 20, 20⟩ : SDL_FRect).y) % 600
              = 20))) :=
  ⟨demoBlock_reachable, rfl, rfl,
    connected_body demoBlock demoBlock_reachable 1 _ _ rfl rfl⟩

/-- C19 (a snake of three segments cannot die). (1) In every running state
reachable from loop entry whose snake has exactly 3 segments, whatever events are
handled before it, the tick returns a state that is still running. (2) Every
reachable game-over state has at least 4 segments. (3) Game over is reachable with
exactly 4 segments: from `demoStart` the snake eats going Right, turns Down, then
Left, and is the running four-segment `demoBlock`; the key Up then makes the
candidate head the tail cell (100,300), and the frame ends in `demoDead`, game over
with 4 segments. -/
theorem length_three_cannot_die :
    (∀ (s : State) (events : List (SDL_Event × Draw)) (d : Draw),
      Reachable s → s.game_over = false → s.snake.length = 3 →
      ∃ s', simulationStep (pollEvents s events) d = some s' ∧ s'.game_over = false) ∧
    (∀ s : State, Reachable s → s.game_over = true → 4 ≤ s.snake.length) ∧
    (runFrames demoStart demoBlockFrames = some demoBlock ∧ Reachable demoBlock ∧
      demoBlock.game_over = false ∧ demoBlock.snake.length = 4 ∧
      demoBlock.snake.getLast? = some ⟨100, 300, 20, 20⟩ ∧
      candidateHead (pollEvents demoBlock [keyDown .SDL_SCANCODE_UP]) ⟨100, 320, 20, 20⟩
        = ⟨100, 300, 20, 20⟩ ∧
      frame demoBlock [keyDown .SDL_SCANCODE_UP] 404 ⟨0, 0⟩ = some demoDead ∧
      Reachable demoDead ∧ demoDead.game_over = true ∧ demoDead.snake.length = 4) := by
  refine ⟨?_, ?_, ?_⟩
  · intro s events d h hrun hlen
    obtain ⟨-, -, hgrid, -⟩ := inv_of_reachable s h
    obtain ⟨hdist, hconn, hdir, hfollow, -⟩ := shape_of_reachable s h
    obtain ⟨front, seg1, rest, hsn, hfront⟩ := hfollow hrun
    obtain ⟨k1, -, -, k4, -, -, -, k8⟩ := pollEvents_running events s hrun
    rw [hsn] at hlen
    match rest, hlen with
    | [seg2], _ =>
      rw [hsn] at hdist hconn hgrid
      have hg1 : onGrid seg1 := hgrid seg1 (by simp)
      have hg2 : onGrid seg2 := hgrid seg2 (by simp)
      have hadj : adjacent seg1 seg2 := by
        unfold connected at hconn
        simp only [List.chain'_cons] at hconn
        exact hconn.2.1
      have hne : ¬(front.x = seg2.x ∧ front.y = seg2.y) := by
        unfold distinctCells at hdist
        simp only [List.pairwise_cons] at hdist
        exact hdist.1 seg2 (by simp)
      have hcol := selfCollision_three s.current_direction
        (pollEvents s events).next_direction front seg1 seg2 hg1 hg2 hfront (k8 hdir)
        hadj hne
      have hsn2 : (pollEvents s events).snake = [front, seg1, seg2] := k1.trans hsn
      obtain ⟨s', hs'⟩ := simulationStep_isSome (pollEvents s events) d (by rw [hsn2]; simp)
      refine ⟨s', hs', ?_⟩
      cases hover : s'.game_over with
      | false => rfl
      | true =>
        obtain ⟨front', hf', hc'⟩ :=
          simulationStep_game_over (pollEvents s events) s' d k4 hs' hover
        rw [hsn2] at hf' hc'
        simp only [List.head?_cons, Option.some.injEq] at hf'
        subst hf'
        unfold candidateHead at hc'
        rw [hcol] at hc'
        cases hc'
  · intro s h hover
    exact (shape_of_reachable s h).2.2.2.2 hover
  · exact ⟨by decide, demoBlock_reachable, rfl, rfl, by decide, by decide, by decide,
      demoDead_reachable, rfl, rfl⟩

theorem length_three_cannot_die_witness :
    (∃ s', simulationStep (pollEvents demoTurned demoKeys) ⟨3, 4⟩ = some s' ∧
      s'.game_over = false) ∧
    4 ≤ demoDead.snake.length := by
  obtain ⟨hsafe, hover, -⟩ := length_three_cannot_die
  exact ⟨hsafe demoTurned demoKeys ⟨3, 4⟩ demoTurned_reachable rfl rfl,
    hover demoDead demoDead_reachable rfl⟩

/-- C20 (stale score after restart). (1) The restart, like every event, leaves the
title as it is. (2) The state `demoRestarted` is reachable (one food eaten, the
collision of `demoDead`, then the restart key): its snake has 3 segments and its
title still shows the score 1, not the score 0 of length minus 3. (3) From a state
with no growth pending, a tick that consumes no food keeps the title. (4) In every
state reachable without an accepted restart the title shows the score of the snake
length minus 3. -/
theorem stale_score :
    (∀ (s : State) (e : SDL_Event) (d : Draw), (handleEvent s e d).title = s.title) ∧
    (Reachable demoRestarted ∧ demoRestarted.game_over = false ∧
      demoRestarted.snake.length = 3 ∧ demoRestarted.title = scoreTitle 1 ∧
      demoRestarted.title ≠ scoreTitle (demoRestarted.snake.length - 3)) ∧
    (∀ (s s' : State) (d : Draw), s.snake_grows = false → simulationStep s d = some s' →
      consumesFood s = false → s'.title = s.title) ∧
    (∀ s : State, ReachableNoRestart s → s.title = scoreTitle (s.snake.length - 3)) := by
  refine ⟨?_, ⟨demoRestarted_reachable, by decide, by decide, by decide, by decide⟩, ?_, ?_⟩
  · intro s e d
    cases e with
    | SDL_EVENT_QUIT => rfl
    | OTHER => rfl
    | SDL_EVENT_KEY_DOWN scancode =>
      unfold handleEvent
      dsimp only
      split_ifs <;> rfl
  · intro s s' d hgrow hstep hcf
    exact ((simulationStep_effect s s' d hgrow hstep).2 hcf).2.2
  · intro s h
    exact title_of_noRestart s h

theorem stale_score_witness :
    (handleEvent demoDead restartKey ⟨20, 20⟩).title = demoDead.title ∧
      (∃ s', simulationStep demoRestarted ⟨3, 4⟩ = some s' ∧ s'.title = scoreTitle 1) ∧
      ReachableNoRestart demoTurned ∧
      demoTurned.title = scoreTitle (demoTurned.snake.length - 3) := by
  obtain ⟨hevent, -, hkeep, hfresh⟩ := stale_score
  have hnr : ReachableNoRestart demoTurned :=
    ReachableNoRestart.update
      (handleEvent demoStart (.SDL_EVENT_KEY_DOWN .SDL_SCANCODE_UP) ⟨0, 0⟩) demoTurned 101
      ⟨0, 0⟩
      (ReachableNoRestart.event demoStart _ ⟨0, 0⟩ (ReachableNoRestart.start _ _ (by decide))
        (by decide) (by decide))
      (by decide) (by decide)
  obtain ⟨s', hs'⟩ := simulationStep_isSome demoRestarted ⟨3, 4⟩ (by decide)
  exact ⟨hevent demoDead restartKey ⟨20, 20⟩,
    ⟨s', hs', (hkeep demoRestarted s' ⟨3, 4⟩ (by decide) hs' (by decide)).trans (by decide)⟩,
    hnr, hfresh demoTurned hnr⟩

end SnakeGame
